import Mathlib

/-!
# Verification of the ai-gallery authentication core

A shallow embedding of the token-based authentication and session-lifecycle
subsystem of the ai-gallery repository, together with proofs and refutations
of the specification's claims about it.

The embedding covers:
* `src/lib/auth.ts` — the credential minter/verifier (`signToken`,
  `issueTokenPair`, `verifyToken`), with the `jose` library's `jwtVerify`
  modelled by its documented check order: signature, then the `exp` claim,
  before the caller's own `kind` check.
* `src/lib/env.ts` (github helpers) — the handshake state codec
  (`encodeStateCookie` / `decodeStateCookie`) down to the byte level:
  JSON serialisation with `JSON.stringify` string escaping, UTF-8
  encoding/decoding, base64url packing (Node `Buffer` semantics: encoding is
  canonical and unpadded, decoding is lenient), and a JSON parser modelling
  `JSON.parse`; plus `sanitizeRedirectPath`.
* `src/lib/client-session.ts` — the client credential cache and single-flight
  refresh coordinator, modelled as a small-step event machine whose atomic
  steps are the synchronous segments between `await` points of the
  JavaScript event loop.
* `src/app/api/auth/github/callback/route.ts` — the OAuth callback
  orchestrator, modelled as a pure function that also returns the trace of
  provider/database effects it performs.
* `src/app/page.tsx` — the opener's popup-message handler.

Machine integers are modelled as `Nat`/`Int` (timestamps in milliseconds or
seconds as in the source); fallible operations return `Option`/`Except`.
-/

/- ------------------------------------------------------------------ -/
/-! ## Credential Minter/Verifier (`src/lib/auth.ts`)

`signToken` produces an HS256 JWT whose payload is
`{ kind, sub, iat: issuedAtSeconds, exp: issuedAtSeconds + ttlSeconds }`.
We model a signed token as that payload together with the signing secret
standing in for the HMAC signature (verification compares it with the
verifier's secret, which is exactly what MAC verification decides).

`verifyToken` calls `jose`'s `jwtVerify`, which first checks the signature,
then the `exp` claim (failing with `JWTExpired` when `exp <= now`), and only
afterwards does `verifyToken` itself compare `payload.kind` with
`expectedKind`. -/

/-- Token kinds, `type TokenKind = "access" | "refresh"`. -/
inductive TokenKind where
  | access
  | refresh
deriving DecidableEq, Repr

/-- A signed token: the JWT payload of `signToken` plus the signature,
modelled by the secret that produced it. Times are in seconds. -/
structure SignedToken where
  kind : TokenKind
  sub : String
  iat : Nat
  exp : Nat
  sig : String
deriving DecidableEq, Repr

/-- The verified payload returned by `verifyToken`. -/
structure TokenClaims where
  kind : TokenKind
  sub : String
  iat : Nat
  exp : Nat
deriving DecidableEq, Repr

/-- Failure modes of `verifyToken`: `jose` raises `JWSSignatureVerificationFailed`
(spec: `BadSignature`) or `JWTExpired` (spec: `Expired`); `verifyToken` itself
raises `"Invalid token kind."` (spec: `KindMismatch`). -/
inductive VerifyError where
  | BadSignature
  | Expired
  | KindMismatch
deriving DecidableEq, Repr

/-- `ACCESS_TOKEN_TTL_SECONDS = 60 * 90`. -/
def ACCESS_TOKEN_TTL_SECONDS : Nat := 60 * 90

/-- `REFRESH_TOKEN_TTL_SECONDS = 60 * 60 * 24 * 14`. -/
def REFRESH_TOKEN_TTL_SECONDS : Nat := 60 * 60 * 24 * 14

/-- `signToken(userId, kind, ttlSeconds)`; `nowSeconds` is
`Math.floor(Date.now() / 1000)`. Returns the token and `expiresAt`
in milliseconds (`expiresAtSeconds * 1000`). -/
def signToken (secret userId : String) (kind : TokenKind) (ttlSeconds nowSeconds : Nat) :
    SignedToken × Nat :=
  let issuedAtSeconds := nowSeconds
  let expiresAtSeconds := issuedAtSeconds + ttlSeconds
  (⟨kind, userId, issuedAtSeconds, expiresAtSeconds, secret⟩, expiresAtSeconds * 1000)

/-- The token pair produced by `issueTokenPair` (expiry fields in ms). -/
structure TokenPair where
  accessToken : SignedToken
  refreshToken : SignedToken
  accessTokenExpiresAt : Nat
  refreshTokenExpiresAt : Nat
deriving DecidableEq, Repr

/-- `issueTokenPair(userId, env)`. -/
def issueTokenPair (secret userId : String) (nowSeconds : Nat) : TokenPair :=
  let access := signToken secret userId .access ACCESS_TOKEN_TTL_SECONDS nowSeconds
  let refresh := signToken secret userId .refresh REFRESH_TOKEN_TTL_SECONDS nowSeconds
  ⟨access.1, refresh.1, access.2, refresh.2⟩

/-- `verifyToken(token, expectedKind, env)` at time `nowSeconds`:
`jwtVerify` checks the signature, then fails with `JWTExpired` when
`exp <= now`; afterwards the `kind` claim is compared with `expectedKind`. -/
def verifyToken (secret : String) (token : SignedToken) (expectedKind : TokenKind)
    (nowSeconds : Nat) : Except VerifyError TokenClaims :=
  if token.sig ≠ secret then
    .error .BadSignature
  else if token.exp ≤ nowSeconds then
    .error .Expired
  else if token.kind ≠ expectedKind then
    .error .KindMismatch
  else
    .ok ⟨token.kind, token.sub, token.iat, token.exp⟩

/- ------------------------------------------------------------------ -/
/-! ### Claims C4 and C5 -/

/-- C5 (confirmed). Mint/verify round trip: for every secret, `userId` and
`ttl`, verifying `signToken(userId, "access", ttl)` (minted at `t0`) with
expected kind `"access"` and the same secret returns the payload with
subject `userId` whenever `now < issuedAt + ttl`, and fails with `Expired`
once `now ≥ issuedAt + ttl`. -/
theorem mint_verify_access_roundtrip (secret u : String) (ttl t0 tv : Nat) :
    (tv < t0 + ttl →
      verifyToken secret (signToken secret u .access ttl t0).1 .access tv =
        .ok ⟨.access, u, t0, t0 + ttl⟩) ∧
    (t0 + ttl ≤ tv →
      verifyToken secret (signToken secret u .access ttl t0).1 .access tv =
        .error .Expired) := by
  constructor <;> intro h <;>
    simp [verifyToken, signToken] <;> omega

/-- Witness for C5 at `secret = "k"`, `u = "alice"`, `ttl = 10`, `t0 = 100`:
verification at `now = 105` succeeds with subject `"alice"`, and at
`now = 110` fails with `Expired`. -/
theorem mint_verify_access_roundtrip_witness :
    verifyToken "k" (signToken "k" "alice" .access 10 100).1 .access 105 =
        .ok ⟨.access, "alice", 100, 110⟩ ∧
    verifyToken "k" (signToken "k" "alice" .access 10 100).1 .access 110 =
        .error .Expired :=
  ⟨(mint_verify_access_roundtrip "k" "alice" 10 100 105).1 (by omega),
   (mint_verify_access_roundtrip "k" "alice" 10 100 110).2 (by omega)⟩

/-- C4 (counterexample). The claim says verifying a `"refresh"`-minted token
with expected kind `"access"` fails with `KindMismatch` even when
`now ≥ expiresAt`. It does not: `jwtVerify` validates the `exp` claim before
`verifyToken` compares kinds, so a refresh token minted at `t0 = 0` with
`ttl = 10` and verified at `now = 10` fails with `Expired`, not
`KindMismatch`. -/
theorem verify_expired_refresh_as_access_not_kind_mismatch :
    verifyToken "k" (signToken "k" "u" .refresh 10 0).1 .access 10 =
        .error .Expired ∧
    verifyToken "k" (signToken "k" "u" .refresh 10 0).1 .access 10 ≠
        .error .KindMismatch := by
  constructor <;> simp [verifyToken, signToken]

/-- C4 (amended). Verifying a token minted with kind `"refresh"` against
expected kind `"access"` fails with `KindMismatch` while the token is
unexpired (`now < issuedAt + ttl`); once `now ≥ issuedAt + ttl` it fails
with `Expired` instead, because the expiry check of `jwtVerify` runs before
the kind comparison. In both cases verification never succeeds. -/
theorem verify_refresh_as_access_fails (secret u : String) (ttl t0 tv : Nat) :
    (tv < t0 + ttl →
      verifyToken secret (signToken secret u .refresh ttl t0).1 .access tv =
        .error .KindMismatch) ∧
    (t0 + ttl ≤ tv →
      verifyToken secret (signToken secret u .refresh ttl t0).1 .access tv =
        .error .Expired) := by
  constructor <;> intro h <;>
    simp [verifyToken, signToken] <;> omega

/-- Witness for the amended C4 at `secret = "k"`, `u = "bob"`, `ttl = 10`,
`t0 = 0`: at `now = 5` the failure is `KindMismatch`, at `now = 10` it is
`Expired`. -/
theorem verify_refresh_as_access_fails_witness :
    verifyToken "k" (signToken "k" "bob" .refresh 10 0).1 .access 5 =
        .error .KindMismatch ∧
    verifyToken "k" (signToken "k" "bob" .refresh 10 0).1 .access 10 =
        .error .Expired :=
  ⟨(verify_refresh_as_access_fails "k" "bob" 10 0 5).1 (by omega),
   (verify_refresh_as_access_fails "k" "bob" 10 0 10).2 (by omega)⟩

/- ------------------------------------------------------------------ -/
/-! ## Redirect-path sanitiser (`src/lib/env.ts` github helpers and
`src/lib/client-session.ts`)

Both copies of `sanitizeRedirectPath` share one body; they differ only in
the default fallback (`DEFAULT_POST_LOGIN_REDIRECT = "/generate"` on the
server, `"/"` on the client). `candidate` is `string | null | undefined`,
modelled as `Option String`; the JavaScript truthiness test `!candidate`
also rejects the empty string. `String.prototype.startsWith` is modelled
as a prefix check on the character list. -/

/-- Prefix test on character lists. -/
def listStartsWith : List Char → List Char → Bool
  | _, [] => true
  | [], _ :: _ => false
  | c :: cs, p :: ps => c = p && listStartsWith cs ps

/-- JavaScript `s.startsWith(p)`. -/
def jsStartsWith (s p : String) : Bool := listStartsWith s.data p.data

/-- `DEFAULT_POST_LOGIN_REDIRECT = "/generate"`. -/
def DEFAULT_POST_LOGIN_REDIRECT : String := "/generate"

/-- `sanitizeRedirectPath(candidate, fallback)`. -/
def sanitizeRedirectPath (candidate : Option String) (fallback : String) : String :=
  match candidate with
  | none => fallback
  | some c =>
    if c = "" ∨ jsStartsWith c "/" = false then fallback
    else if jsStartsWith c "//" = true then fallback
    else c

/-- A character list starting with `['/', '/']` starts with `['/']`. -/
theorem listStartsWith_slash_of_double (l : List Char)
    (h : listStartsWith l ['/', '/'] = true) : listStartsWith l ['/'] = true := by
  rcases l with _ | ⟨a, t⟩
  · simp [listStartsWith] at h
  · simp only [listStartsWith, Bool.and_eq_true, decide_eq_true_eq] at h ⊢
    exact ⟨h.1, trivial⟩

/-- A string starting with `"//"` starts with `"/"`. -/
theorem jsStartsWith_slash_of_double (s : String) (h : jsStartsWith s "//" = true) :
    jsStartsWith s "/" = true :=
  listStartsWith_slash_of_double s.data h

/-- C10 (confirmed). The open-redirect guard: `sanitizeRedirectPath` returns
the fallback whenever the candidate is null/undefined, empty, does not start
with `"/"`, or starts with `"//"`, and returns the candidate unchanged
otherwise; consequently, whenever the fallback is itself a non-protocol-
relative absolute path (as are both fallbacks used in the repository —
`"/generate"` for the login-start route and the OAuth callback, `"/"` for
the client), every value the sanitiser produces starts with `"/"` and not
with `"//"`: a same-origin absolute path, never an external or
protocol-relative URL. -/
theorem sanitizeRedirectPath_open_redirect_guard (c : Option String) (fb : String)
    (hfb : jsStartsWith fb "/" = true) (hfb2 : jsStartsWith fb "//" = false) :
    sanitizeRedirectPath none fb = fb ∧
    sanitizeRedirectPath (some "") fb = fb ∧
    (∀ s : String, jsStartsWith s "/" = false → sanitizeRedirectPath (some s) fb = fb) ∧
    (∀ s : String, jsStartsWith s "//" = true → sanitizeRedirectPath (some s) fb = fb) ∧
    (∀ s : String, jsStartsWith s "/" = true → jsStartsWith s "//" = false →
      sanitizeRedirectPath (some s) fb = s) ∧
    jsStartsWith (sanitizeRedirectPath c fb) "/" = true ∧
    jsStartsWith (sanitizeRedirectPath c fb) "//" = false := by
  have guard : ∀ d : Option String,
      jsStartsWith (sanitizeRedirectPath d fb) "/" = true ∧
      jsStartsWith (sanitizeRedirectPath d fb) "//" = false := by
    intro d
    rcases d with _ | s
    · exact ⟨hfb, hfb2⟩
    · by_cases h0 : s = "" ∨ jsStartsWith s "/" = false
      · simp only [sanitizeRedirectPath, if_pos h0]
        exact ⟨hfb, hfb2⟩
      · by_cases h1 : jsStartsWith s "//" = true
        · simp only [sanitizeRedirectPath, if_neg h0, if_pos h1]
          exact ⟨hfb, hfb2⟩
        · simp only [sanitizeRedirectPath, if_neg h0, if_neg h1]
          push_neg at h0
          exact ⟨by simpa using h0.2, by simpa using h1⟩
  refine ⟨rfl, by simp [sanitizeRedirectPath], ?_, ?_, ?_, (guard c).1, (guard c).2⟩
  · intro s hs
    simp [sanitizeRedirectPath, hs]
  · intro s hs
    by_cases h0 : s = "" ∨ jsStartsWith s "/" = false
    · simp [sanitizeRedirectPath, h0]
    · simp [sanitizeRedirectPath, h0, hs]
  · intro s hs hs2
    have h0 : ¬(s = "" ∨ jsStartsWith s "/" = false) := by
      push_neg
      constructor
      · rintro rfl
        simp [jsStartsWith, listStartsWith] at hs
      · simp [hs]
    simp [sanitizeRedirectPath, h0, hs2]

/-- Witness for C10 with the server fallback `"/generate"`: an external
candidate `"https://evil.example"` is replaced by the fallback, a
protocol-relative `"//evil.example"` is replaced by the fallback, and a
legitimate `"/articles/7"` passes through unchanged; all three results are
same-origin absolute paths. -/
theorem sanitizeRedirectPath_open_redirect_guard_witness :
    sanitizeRedirectPath (some "https://evil.example") DEFAULT_POST_LOGIN_REDIRECT =
        DEFAULT_POST_LOGIN_REDIRECT ∧
    sanitizeRedirectPath (some "//evil.example") DEFAULT_POST_LOGIN_REDIRECT =
        DEFAULT_POST_LOGIN_REDIRECT ∧
    sanitizeRedirectPath (some "/articles/7") DEFAULT_POST_LOGIN_REDIRECT =
        "/articles/7" ∧
    jsStartsWith (sanitizeRedirectPath (some "//evil.example")
        DEFAULT_POST_LOGIN_REDIRECT) "//" = false :=
  ⟨(sanitizeRedirectPath_open_redirect_guard (some "https://evil.example")
      DEFAULT_POST_LOGIN_REDIRECT (by decide) (by decide)).2.2.1
      "https://evil.example" (by decide),
   (sanitizeRedirectPath_open_redirect_guard (some "//evil.example")
      DEFAULT_POST_LOGIN_REDIRECT (by decide) (by decide)).2.2.2.1
      "//evil.example" (by decide),
   (sanitizeRedirectPath_open_redirect_guard (some "/articles/7")
      DEFAULT_POST_LOGIN_REDIRECT (by decide) (by decide)).2.2.2.2.1
      "/articles/7" (by decide) (by decide),
   (sanitizeRedirectPath_open_redirect_guard (some "//evil.example")
      DEFAULT_POST_LOGIN_REDIRECT (by decide) (by decide)).2.2.2.2.2.2⟩

/- ------------------------------------------------------------------ -/
/-! ## Credential cache & refresh coordinator (`src/lib/client-session.ts`)

The client module keeps three pieces of mutable state: the localStorage
slots `ai-gallery:token-payload` and `ai-gallery:session-user` (modelled at
the parsed level) and the in-memory mirrors `userCache` and
`refreshPromise`. JavaScript is single-threaded: every synchronous segment
between `await` points runs atomically. We model the module as a state
machine whose atomic events are exactly those segments:

* `start i` — caller `i` invokes `getValidAccessToken` /
  `ensureAccessToken`: it reads the stored tokens, returns the access token
  if fresh, and otherwise runs the synchronous prefix of `refreshTokens`
  (joining the in-flight promise, or failing on a missing/expired refresh
  token, or initiating the network call — `fetch` is issued synchronously
  inside the async IIFE before its first `await`).
* `fetchArrive outcome` — the refresh `fetch` settles; on `response.ok` the
  IIFE suspends on `await response.json()`, otherwise it clears the session,
  the `finally` resets `refreshPromise`, and all awaiting callers resume
  with `null`.
* `jsonArrive` / `jsonThrow` — `response.json()` settles; on success the
  payload is persisted and awaiting callers resume with the new access
  token; on failure (`catch`) the session is cleared and they resume with
  `null`.

`Date.now()` is the parameter `now`, held fixed across a scenario (the
claims' scenarios span a fraction of a second). -/

/-- `SessionUser`. -/
structure SessionUser where
  id : String
  login : String
  name : Option String
  email : Option String
  avatarUrl : Option String
  isCreator : Bool
deriving DecidableEq, Repr

/-- `StoredTokenPayload` — the parsed value of the
`ai-gallery:token-payload` localStorage slot. Expiry fields are millisecond
timestamps. -/
structure StoredTokenPayload where
  accessToken : String
  accessTokenExpireIn : Int
  refreshToken : String
  refreshTokenExpireIn : Int
deriving DecidableEq, Repr

/-- `TokenPayloadDto` — the refresh endpoint's response body. -/
structure TokenPayloadDto where
  accessToken : String
  accessTokenExpireIn : Int
  refreshToken : String
  refreshTokenExpireIn : Int
  user : Option SessionUser
deriving DecidableEq, Repr

/-- `TOKEN_SKEW_MS = 5_000`. -/
def TOKEN_SKEW_MS : Int := 5000

/-- `isExpired(timestamp, skew)`: a falsy (`0`) timestamp counts as expired,
otherwise expired iff `Date.now() >= timestamp - skew`. -/
def isExpired (now timestamp skew : Int) : Bool :=
  decide (timestamp = 0) || decide (timestamp - skew ≤ now)

/-- `readStoredTokens()`: reads the token slot; entries whose `accessToken`
or `refreshToken` is missing or empty (falsy) are rejected. JSON parsing of
the raw slot is modelled at the parsed level. -/
def readStoredTokens (slot : Option StoredTokenPayload) : Option StoredTokenPayload :=
  match slot with
  | none => none
  | some p => if p.accessToken = "" ∨ p.refreshToken = "" then none else some p

/-- `getValidRefreshToken()`: the stored refresh token, with **no skew
grace** (`isExpired(stored.refreshTokenExpireIn, 0)`). -/
def getValidRefreshToken (slot : Option StoredTokenPayload) (now : Int) : Option String :=
  match readStoredTokens slot with
  | none => none
  | some st =>
    if isExpired now st.refreshTokenExpireIn 0 then none else some st.refreshToken

/-- Program counter of the in-flight refresh IIFE. -/
inductive RefreshPC where
  | awaitingFetch
  | awaitingJson (payload : TokenPayloadDto)
deriving DecidableEq, Repr

/-- Program counter of a `getValidAccessToken` caller. -/
inductive CallerPC where
  | idle
  | awaitingRefresh
  | done (result : Option String)
deriving DecidableEq, Repr

/-- The two concurrent callers of the claims' scenarios. -/
inductive CallerId where
  | A
  | B
deriving DecidableEq, Repr

/-- The client session module state. -/
structure SessionState where
  tokenStore : Option StoredTokenPayload
  userStore : Option SessionUser
  userCache : Option SessionUser
  inflight : Option RefreshPC
  fetchCount : Nat
  callerA : CallerPC
  callerB : CallerPC
deriving DecidableEq, Repr

def SessionState.caller (s : SessionState) : CallerId → CallerPC
  | .A => s.callerA
  | .B => s.callerB

def SessionState.setCaller (s : SessionState) : CallerId → CallerPC → SessionState
  | .A, pc => { s with callerA := pc }
  | .B, pc => { s with callerB := pc }

/-- `clearStoredSession()`: drops the in-memory user mirror and removes both
localStorage slots. -/
def clearStoredSession (s : SessionState) : SessionState :=
  { s with userCache := none, tokenStore := none, userStore := none }

/-- `saveSessionUser(user)`: updates the in-memory mirror and writes or
removes the user slot. -/
def saveSessionUser (u : Option SessionUser) (s : SessionState) : SessionState :=
  { s with userCache := u, userStore := u }

/-- `persistTokenPayload(payload)`: writes the normalised token slot, then
`saveSessionUser(payload.user ?? null)`. -/
def persistTokenPayload (p : TokenPayloadDto) (s : SessionState) : SessionState :=
  saveSessionUser p.user
    { s with tokenStore := some (StoredTokenPayload.mk p.accessToken
        p.accessTokenExpireIn p.refreshToken p.refreshTokenExpireIn) }

/-- `getStoredSessionUser()`: the in-memory mirror, falling back to the user
slot (whose memoising write-back does not change the observable value). -/
def getStoredSessionUser (s : SessionState) : Option SessionUser :=
  match s.userCache with
  | some u => some u
  | none => s.userStore

/-- Resume every caller suspended on the refresh promise with
`refreshed?.accessToken ?? null`. -/
def resolveAwaiting (result : Option String) (s : SessionState) : SessionState :=
  { s with
      callerA := if s.callerA = .awaitingRefresh then .done result else s.callerA,
      callerB := if s.callerB = .awaitingRefresh then .done result else s.callerB }

/-- The synchronous prefix of `refreshTokens()` as run by a caller that
found no fresh access token: join the in-flight promise if any; otherwise
fail immediately when no valid refresh token is stored; otherwise start the
refresh (issuing the network call) and await it. -/
def refreshJoinOrStart (now : Int) (i : CallerId) (s : SessionState) : SessionState :=
  if s.inflight.isSome then
    s.setCaller i .awaitingRefresh
  else
    match getValidRefreshToken s.tokenStore now with
    | none => s.setCaller i (.done none)
    | some _ =>
      { s with inflight := some .awaitingFetch, fetchCount := s.fetchCount + 1
      }.setCaller i .awaitingRefresh

/-- Outcome of the refresh endpoint `fetch`. -/
inductive FetchOutcome where
  | ok (payload : TokenPayloadDto)
  | httpError
  | networkThrow
deriving DecidableEq, Repr

/-- Events of the session machine. -/
inductive SessionEvent where
  | start (i : CallerId)
  | fetchArrive (outcome : FetchOutcome)
  | jsonArrive
  | jsonThrow
deriving DecidableEq, Repr

/-- One atomic step. Events that do not apply in the current state (a
response arriving with no matching in-flight refresh, a caller starting
twice) leave the state unchanged. -/
def stepEvent (now : Int) (e : SessionEvent) (s : SessionState) : SessionState :=
  match e with
  | .start i =>
    if s.caller i ≠ .idle then s
    else
      match readStoredTokens s.tokenStore with
      | some st =>
        if isExpired now st.accessTokenExpireIn TOKEN_SKEW_MS then
          refreshJoinOrStart now i s
        else
          s.setCaller i (.done (some st.accessToken))
      | none => refreshJoinOrStart now i s
  | .fetchArrive outcome =>
    match s.inflight with
    | some .awaitingFetch =>
      match outcome with
      | .ok payload => { s with inflight := some (.awaitingJson payload) }
      | .httpError => resolveAwaiting none { clearStoredSession s with inflight := none }
      | .networkThrow => resolveAwaiting none { clearStoredSession s with inflight := none }
    | _ => s
  | .jsonArrive =>
    match s.inflight with
    | some (.awaitingJson payload) =>
      resolveAwaiting (some payload.accessToken)
        { persistTokenPayload payload s with inflight := none }
    | _ => s
  | .jsonThrow =>
    match s.inflight with
    | some (.awaitingJson _) =>
      resolveAwaiting none { clearStoredSession s with inflight := none }
    | _ => s

/-- Run a list of events. -/
def runEvents (now : Int) (evs : List SessionEvent) (s : SessionState) : SessionState :=
  evs.foldl (fun st e => stepEvent now e st) s

/-- The initial state of the claims' scenarios: a stored token slot, an
arbitrary cached user, no refresh in flight, no network call yet, both
callers idle. -/
def initialSession (slot : Option StoredTokenPayload) (userSlot mirror : Option SessionUser) :
    SessionState :=
  ⟨slot, userSlot, mirror, none, 0, .idle, .idle⟩

/- ------------------------------------------------------------------ -/
/-! ### Claims C1, C2 and C3 -/

/-- C1 (confirmed). Single-flight refresh: from a state with a stored token
pair whose access credential is expired (within skew) and whose refresh
credential is valid, for **every** interleaving of two concurrent
`getValidAccessToken` calls in which the second call begins while the
refresh is in flight (the four schedules below are all such interleavings
of the callers' atomic segments with the refresh lifecycle), exactly one
network refresh call is issued and both callers resolve to the same new
access credential — the one carried by the single shared refresh
response. -/
theorem single_flight_refresh (now : Int) (st0 : StoredTokenPayload)
    (userSlot mirror : Option SessionUser) (p : TokenPayloadDto)
    (evs : List SessionEvent)
    (hA : st0.accessToken ≠ "") (hR : st0.refreshToken ≠ "")
    (hExp : isExpired now st0.accessTokenExpireIn TOKEN_SKEW_MS = true)
    (hRef : isExpired now st0.refreshTokenExpireIn 0 = false)
    (hsched :
      evs = [.start .A, .start .B, .fetchArrive (.ok p), .jsonArrive] ∨
      evs = [.start .A, .fetchArrive (.ok p), .start .B, .jsonArrive] ∨
      evs = [.start .B, .start .A, .fetchArrive (.ok p), .jsonArrive] ∨
      evs = [.start .B, .fetchArrive (.ok p), .start .A, .jsonArrive]) :
    (runEvents now evs (initialSession (some st0) userSlot mirror)).fetchCount = 1 ∧
    (runEvents now evs (initialSession (some st0) userSlot mirror)).callerA =
      .done (some p.accessToken) ∧
    (runEvents now evs (initialSession (some st0) userSlot mirror)).callerB =
      .done (some p.accessToken) := by
  have hread : readStoredTokens (some st0) = some st0 := by
    simp [readStoredTokens, hA, hR]
  have hrefv : getValidRefreshToken (some st0) now = some st0.refreshToken := by
    simp [getValidRefreshToken, hread, hRef]
  rcases hsched with rfl | rfl | rfl | rfl <;>
    simp [runEvents, stepEvent, refreshJoinOrStart, hread, hrefv, hExp,
      SessionState.caller, SessionState.setCaller, resolveAwaiting,
      persistTokenPayload, saveSessionUser, initialSession]

/-- Witness for C1: concrete expired access token (`expireIn = 1` ms),
valid refresh token, schedule in which the second caller starts while the
refresh response is pending. -/
theorem single_flight_refresh_witness :
    (runEvents 1000000
      [.start .A, .fetchArrive (.ok ⟨"newacc", 2000000, "newref", 3000000,
        some ⟨"u1", "octo", none, none, none, false⟩⟩), .start .B, .jsonArrive]
      (initialSession (some ⟨"acc", 1, "ref", 999999999⟩) none none)).fetchCount = 1 ∧
    (runEvents 1000000
      [.start .A, .fetchArrive (.ok ⟨"newacc", 2000000, "newref", 3000000,
        some ⟨"u1", "octo", none, none, none, false⟩⟩), .start .B, .jsonArrive]
      (initialSession (some ⟨"acc", 1, "ref", 999999999⟩) none none)).callerA =
      .done (some "newacc") ∧
    (runEvents 1000000
      [.start .A, .fetchArrive (.ok ⟨"newacc", 2000000, "newref", 3000000,
        some ⟨"u1", "octo", none, none, none, false⟩⟩), .start .B, .jsonArrive]
      (initialSession (some ⟨"acc", 1, "ref", 999999999⟩) none none)).callerB =
      .done (some "newacc") :=
  single_flight_refresh 1000000 ⟨"acc", 1, "ref", 999999999⟩ none none
    ⟨"newacc", 2000000, "newref", 3000000, some ⟨"u1", "octo", none, none, none, false⟩⟩
    _ (by decide) (by decide) (by decide) (by decide) (Or.inr (Or.inl rfl))

/-- C2 (confirmed). Refresh failure is all-or-nothing: when the refresh
endpoint call fails — a non-OK response (`httpError`) or a thrown network
error (`networkThrow`) — the caller resolves to `null` and the entire
cached session is gone: the stored token slot, the stored user slot and
the in-memory user mirror are all `none`, so a subsequent
`getStoredSessionUser()` also returns `none`. The clearing and the
resolution happen inside one synchronous segment (no `await` separates
`clearStoredSession()` from `return null`), so no intermediate
partially-cleared state is observable by other code. -/
theorem refresh_failure_clears_everything (now : Int) (st0 : StoredTokenPayload)
    (userSlot mirror : Option SessionUser) (outcome : FetchOutcome)
    (hA : st0.accessToken ≠ "") (hR : st0.refreshToken ≠ "")
    (hExp : isExpired now st0.accessTokenExpireIn TOKEN_SKEW_MS = true)
    (hRef : isExpired now st0.refreshTokenExpireIn 0 = false)
    (hfail : outcome = .httpError ∨ outcome = .networkThrow) :
    (runEvents now [.start .A, .fetchArrive outcome]
        (initialSession (some st0) userSlot mirror)).callerA = .done none ∧
    (runEvents now [.start .A, .fetchArrive outcome]
        (initialSession (some st0) userSlot mirror)).tokenStore = none ∧
    (runEvents now [.start .A, .fetchArrive outcome]
        (initialSession (some st0) userSlot mirror)).userStore = none ∧
    (runEvents now [.start .A, .fetchArrive outcome]
        (initialSession (some st0) userSlot mirror)).userCache = none ∧
    getStoredSessionUser (runEvents now [.start .A, .fetchArrive outcome]
        (initialSession (some st0) userSlot mirror)) = none := by
  have hread : readStoredTokens (some st0) = some st0 := by
    simp [readStoredTokens, hA, hR]
  have hrefv : getValidRefreshToken (some st0) now = some st0.refreshToken := by
    simp [getValidRefreshToken, hread, hRef]
  rcases hfail with rfl | rfl <;>
    simp [runEvents, stepEvent, refreshJoinOrStart, hread, hrefv, hExp,
      SessionState.caller, SessionState.setCaller, resolveAwaiting,
      clearStoredSession, getStoredSessionUser, initialSession]

/-- Witness for C2: concrete expired access token, valid refresh token,
refresh endpoint answers non-OK. -/
theorem refresh_failure_clears_everything_witness :
    (runEvents 1000000 [.start .A, .fetchArrive .httpError]
        (initialSession (some ⟨"acc", 1, "ref", 999999999⟩)
          (some ⟨"u1", "octo", none, none, none, false⟩)
          (some ⟨"u1", "octo", none, none, none, false⟩))).tokenStore = none ∧
    getStoredSessionUser (runEvents 1000000 [.start .A, .fetchArrive .httpError]
        (initialSession (some ⟨"acc", 1, "ref", 999999999⟩)
          (some ⟨"u1", "octo", none, none, none, false⟩)
          (some ⟨"u1", "octo", none, none, none, false⟩))) = none := by
  have h := refresh_failure_clears_everything 1000000 ⟨"acc", 1, "ref", 999999999⟩
    (some ⟨"u1", "octo", none, none, none, false⟩)
    (some ⟨"u1", "octo", none, none, none, false⟩) .httpError
    (by decide) (by decide) (by decide) (by decide) (Or.inl rfl)
  exact ⟨h.2.1, h.2.2.2.2⟩

/-- C3 (counterexample). The claim says that when the access credential is
expired and the refresh credential is absent or expired,
`getValidAccessToken` clears the entire cached session and returns `null`.
The code returns `null` without clearing anything: with both stored
credentials expired (`expireIn = 1` ms at `now = 1000000`) and a cached
user present, the caller resolves to `null` while the token slot, the user
slot and the in-memory mirror all still hold their stale values. -/
theorem stale_refresh_no_clear_cex :
    (runEvents 1000000 [.start .A]
        (initialSession (some ⟨"a", 1, "r", 1⟩)
          (some ⟨"u1", "octo", none, none, none, false⟩)
          (some ⟨"u1", "octo", none, none, none, false⟩))).callerA = .done none ∧
    (runEvents 1000000 [.start .A]
        (initialSession (some ⟨"a", 1, "r", 1⟩)
          (some ⟨"u1", "octo", none, none, none, false⟩)
          (some ⟨"u1", "octo", none, none, none, false⟩))).tokenStore ≠ none ∧
    getStoredSessionUser (runEvents 1000000 [.start .A]
        (initialSession (some ⟨"a", 1, "r", 1⟩)
          (some ⟨"u1", "octo", none, none, none, false⟩)
          (some ⟨"u1", "octo", none, none, none, false⟩))) ≠ none := by
  refine ⟨?_, ?_, ?_⟩ <;> decide

/-- C3 (amended). When the cached access credential is expired (within
skew) or absent, no refresh is in flight, and the cached refresh credential
is absent or already expired (no skew grace), `getValidAccessToken` returns
`null` **without clearing anything**: the stored credential pair and the
cached user projection are left untouched (the session is cleared only when
an actually-issued refresh call fails, or by `fetchCurrentUser`). -/
theorem stale_refresh_returns_null_without_clearing (now : Int)
    (slot : Option StoredTokenPayload) (userSlot mirror : Option SessionUser)
    (hAccess : ∀ st, readStoredTokens slot = some st →
      isExpired now st.accessTokenExpireIn TOKEN_SKEW_MS = true)
    (hRefresh : getValidRefreshToken slot now = none) :
    runEvents now [.start .A] (initialSession slot userSlot mirror) =
      { initialSession slot userSlot mirror with callerA := .done none } := by
  rcases hread : readStoredTokens slot with _ | st
  · simp [runEvents, stepEvent, refreshJoinOrStart, hread, hRefresh,
      initialSession, SessionState.caller, SessionState.setCaller]
  · have hexp := hAccess st hread
    simp [runEvents, stepEvent, refreshJoinOrStart, hread, hexp, hRefresh,
      initialSession, SessionState.caller, SessionState.setCaller]

/-- Witness for the amended C3 at the counterexample's input: the run ends
in the initial state with the caller resolved to `null`. -/
theorem stale_refresh_returns_null_without_clearing_witness :
    runEvents 1000000 [.start .A]
        (initialSession (some ⟨"a", 1, "r", 1⟩)
          (some ⟨"u1", "octo", none, none, none, false⟩)
          (some ⟨"u1", "octo", none, none, none, false⟩)) =
      { initialSession (some ⟨"a", 1, "r", 1⟩)
          (some ⟨"u1", "octo", none, none, none, false⟩)
          (some ⟨"u1", "octo", none, none, none, false⟩) with callerA := .done none } :=
  stale_refresh_returns_null_without_clearing 1000000 (some ⟨"a", 1, "r", 1⟩)
    (some ⟨"u1", "octo", none, none, none, false⟩)
    (some ⟨"u1", "octo", none, none, none, false⟩)
    (by intro st hst; simp [readStoredTokens] at hst; subst hst; decide)
    (by decide)

/- ------------------------------------------------------------------ -/
/-! ## Handshake state codec (`src/lib/env.ts` github helpers)

`encodeStateCookie(payload)` is
`Buffer.from(JSON.stringify(payload), "utf-8").toString("base64url")` and
`decodeStateCookie(value)` is `JSON.parse(Buffer.from(value,
"base64url").toString("utf-8"))` guarded by a falsiness check and a
`try`/`catch`. We model the full pipeline: `JSON.stringify` string escaping,
UTF-8 byte encoding, unpadded base64url (Node's encoder is canonical; its
decoder is lenient, skipping characters outside the alphabet), lenient
UTF-8 decoding (malformed sequences become U+FFFD), and a `JSON.parse`
grammar parser. Numeric tokens are kept as their lexemes (`Json.num raw`);
their IEEE-754 value is never consulted by this subsystem. Bytes are `Nat`
values below 256. -/

/-- U+FFFD, the replacement character used by lenient UTF-8 decoding. -/
def replacementChar : Char := '�'

/-- UTF-8 encoding of one Unicode scalar value. -/
def utf8EncodeChar (c : Char) : List Nat :=
  let v := c.toNat
  if v < 0x80 then [v]
  else if v < 0x800 then [0xC0 + v / 64, 0x80 + v % 64]
  else if v < 0x10000 then [0xE0 + v / 4096, 0x80 + v / 64 % 64, 0x80 + v % 64]
  else [0xF0 + v / 262144, 0x80 + v / 4096 % 64, 0x80 + v / 64 % 64, 0x80 + v % 64]

/-- UTF-8 encoding of a character list (`Buffer.from(s, "utf-8")`). -/
def utf8Encode (s : List Char) : List Nat := s.flatMap utf8EncodeChar

/-- Decoder state: `some (needed, acc, minV)` while inside a multi-byte
sequence expecting `needed` continuation bytes, with accumulated value `acc`
and overlong threshold `minV`. -/
abbrev Utf8State := Option (Nat × Nat × Nat)

/-- Classify a lead byte: ASCII emits directly; stray continuations,
overlong leads `C0`/`C1` and impossible leads `≥ F5` emit U+FFFD; other
leads open a multi-byte sequence. -/
def utf8Lead (b : Nat) : Utf8State × List Char :=
  if b < 0x80 then (none, [Char.ofNat b])
  else if b < 0xC2 then (none, [replacementChar])
  else if b < 0xE0 then (some (1, b - 0xC0, 0x80), [])
  else if b < 0xF0 then (some (2, b - 0xE0, 0x800), [])
  else if b < 0xF5 then (some (3, b - 0xF0, 0x10000), [])
  else (none, [replacementChar])

/-- Finish a multi-byte sequence: overlong encodings, encoded surrogates
and out-of-range values become U+FFFD. -/
def utf8CompleteChar (v minV : Nat) : Char :=
  if minV ≤ v ∧ ¬(0xD800 ≤ v ∧ v < 0xE000) ∧ v < 0x110000 then Char.ofNat v
  else replacementChar

/-- Feed one byte to the decoder. A non-continuation byte in the middle of
a sequence emits U+FFFD and is reprocessed as a lead. -/
def utf8Step : Utf8State → Nat → Utf8State × List Char
  | none, b => utf8Lead b
  | some (needed, acc, minV), b =>
    if 0x80 ≤ b ∧ b < 0xC0 then
      if needed ≤ 1 then (none, [utf8CompleteChar (acc * 64 + (b - 0x80)) minV])
      else (some (needed - 1, acc * 64 + (b - 0x80), minV), [])
    else
      ((utf8Lead b).1, replacementChar :: (utf8Lead b).2)

/-- Run the decoder; a truncated trailing sequence emits U+FFFD. -/
def utf8DecodeLoop : Utf8State → List Nat → List Char
  | none, [] => []
  | some _, [] => [replacementChar]
  | st, b :: bs => (utf8Step st b).2 ++ utf8DecodeLoop (utf8Step st b).1 bs

/-- Lenient UTF-8 decoding (`buffer.toString("utf-8")`): well-formed
sequences decode to their scalar value; malformed input produces U+FFFD
and resynchronises. -/
def utf8Decode (bs : List Nat) : List Char := utf8DecodeLoop none bs

/-- The scalar-value bound and surrogate-freedom of a `Char`, in `Nat`. -/
theorem char_scalar_bounds (c : Char) :
    c.toNat < 0xd800 ∨ (0xdfff < c.toNat ∧ c.toNat < 0x110000) := by
  have h := c.valid
  simpa [UInt32.isValidChar, Nat.isValidChar, Char.toNat] using h

/-- Every byte of an encoded character is below 256. -/
theorem utf8EncodeChar_lt_256 (c : Char) : ∀ b ∈ utf8EncodeChar c, b < 256 := by
  have hv := char_scalar_bounds c
  unfold utf8EncodeChar
  by_cases h1 : c.toNat < 0x80
  · simp [h1]
    omega
  · by_cases h2 : c.toNat < 0x800
    · simp [h1, h2]
      omega
    · by_cases h3 : c.toNat < 0x10000
      · simp [h1, h2, h3]
        omega
      · simp [h1, h2, h3]
        omega

/-- Every byte of an encoded character list is below 256. -/
theorem utf8Encode_lt_256 (s : List Char) : ∀ b ∈ utf8Encode s, b < 256 := by
  intro b hb
  simp only [utf8Encode, List.mem_flatMap] at hb
  obtain ⟨c, _, hbc⟩ := hb
  exact utf8EncodeChar_lt_256 c b hbc

/-- Decoding a well-formed encoded character at the head of a byte stream
yields that character and continues with the rest. -/
theorem utf8Decode_encodeChar (c : Char) (bs : List Nat) :
    utf8DecodeLoop none (utf8EncodeChar c ++ bs) = c :: utf8DecodeLoop none bs := by
  have hv := char_scalar_bounds c
  have hofn : Char.ofNat c.toNat = c := Char.ofNat_toNat c
  set v := c.toNat with hvdef
  by_cases h1 : v < 0x80
  · have e0 : utf8Step none v = (none, [c]) := by
      simp only [utf8Step, utf8Lead, if_pos h1, hofn]
    simp only [utf8EncodeChar, ← hvdef, if_pos h1, List.cons_append, List.nil_append,
      utf8DecodeLoop, e0, List.singleton_append]
  · by_cases h2 : v < 0x800
    · have e0 : utf8Step none (0xC0 + v / 64) = (some (1, v / 64, 0x80), []) := by
        simp only [utf8Step, utf8Lead]
        rw [if_neg (by omega), if_neg (by omega), if_pos (by omega)]
        have hsub : 0xC0 + v / 64 - 0xC0 = v / 64 := by omega
        rw [hsub]
      have e1 : utf8Step (some (1, v / 64, 0x80)) (0x80 + v % 64) = (none, [c]) := by
        simp only [utf8Step]
        rw [if_pos (by omega), if_pos (by omega)]
        have hval : v / 64 * 64 + (0x80 + v % 64 - 0x80) = v := by omega
        rw [hval]
        unfold utf8CompleteChar
        rw [if_pos ⟨by omega, by omega, by omega⟩, hofn]
      simp only [utf8EncodeChar, ← hvdef, if_neg h1, if_pos h2, List.cons_append,
        List.nil_append, utf8DecodeLoop, e0, e1, List.nil_append, List.singleton_append]
    · by_cases h3 : v < 0x10000
      · have e0 : utf8Step none (0xE0 + v / 4096) = (some (2, v / 4096, 0x800), []) := by
          simp only [utf8Step, utf8Lead]
          rw [if_neg (by omega), if_neg (by omega), if_neg (by omega), if_pos (by omega)]
          have hsub : 0xE0 + v / 4096 - 0xE0 = v / 4096 := by omega
          rw [hsub]
        have e1 : utf8Step (some (2, v / 4096, 0x800)) (0x80 + v / 64 % 64) =
            (some (1, v / 4096 * 64 + (0x80 + v / 64 % 64 - 0x80), 0x800), []) := by
          simp only [utf8Step]
          rw [if_pos (by omega), if_neg (by omega)]
        have e2 : utf8Step (some (1, v / 4096 * 64 + (0x80 + v / 64 % 64 - 0x80), 0x800))
            (0x80 + v % 64) = (none, [c]) := by
          simp only [utf8Step]
          rw [if_pos (by omega), if_pos (by omega)]
          have hval : (v / 4096 * 64 + (0x80 + v / 64 % 64 - 0x80)) * 64 +
              (0x80 + v % 64 - 0x80) = v := by omega
          rw [hval]
          unfold utf8CompleteChar
          rw [if_pos ⟨by omega, by omega, by omega⟩, hofn]
        simp only [utf8EncodeChar, ← hvdef, if_neg h1, if_neg h2, if_pos h3,
          List.cons_append, List.nil_append, utf8DecodeLoop, e0, e1, e2,
          List.nil_append, List.singleton_append]
      · have e0 : utf8Step none (0xF0 + v / 262144) =
            (some (3, v / 262144, 0x10000), []) := by
          simp only [utf8Step, utf8Lead]
          rw [if_neg (by omega), if_neg (by omega), if_neg (by omega), if_neg (by omega),
            if_pos (by omega)]
          have hsub : 0xF0 + v / 262144 - 0xF0 = v / 262144 := by omega
          rw [hsub]
        have e1 : utf8Step (some (3, v / 262144, 0x10000)) (0x80 + v / 4096 % 64) =
            (some (2, v / 262144 * 64 + (0x80 + v / 4096 % 64 - 0x80), 0x10000), []) := by
          simp only [utf8Step]
          rw [if_pos (by omega), if_neg (by omega)]
        have e2 : utf8Step (some (2, v / 262144 * 64 + (0x80 + v / 4096 % 64 - 0x80), 0x10000))
            (0x80 + v / 64 % 64) =
            (some (1, (v / 262144 * 64 + (0x80 + v / 4096 % 64 - 0x80)) * 64 +
              (0x80 + v / 64 % 64 - 0x80), 0x10000), []) := by
          simp only [utf8Step]
          rw [if_pos (by omega), if_neg (by omega)]
        have e3 : utf8Step (some (1, (v / 262144 * 64 + (0x80 + v / 4096 % 64 - 0x80)) * 64 +
              (0x80 + v / 64 % 64 - 0x80), 0x10000)) (0x80 + v % 64) = (none, [c]) := by
          simp only [utf8Step]
          rw [if_pos (by omega), if_pos (by omega)]
          have hval : ((v / 262144 * 64 + (0x80 + v / 4096 % 64 - 0x80)) * 64 +
              (0x80 + v / 64 % 64 - 0x80)) * 64 + (0x80 + v % 64 - 0x80) = v := by omega
          rw [hval]
          unfold utf8CompleteChar
          rw [if_pos ⟨by omega, by omega, by omega⟩, hofn]
        simp only [utf8EncodeChar, ← hvdef, if_neg h1, if_neg h2, if_neg h3,
          List.cons_append, List.nil_append, utf8DecodeLoop, e0, e1, e2, e3,
          List.nil_append, List.singleton_append]

/-- UTF-8 round trip: decoding an encoded character list recovers it. -/
theorem utf8Decode_utf8Encode (s : List Char) : utf8Decode (utf8Encode s) = s := by
  induction s with
  | nil => simp [utf8Encode, utf8Decode, utf8DecodeLoop]
  | cons c cs ih =>
    have h : utf8Encode (c :: cs) = utf8EncodeChar c ++ utf8Encode cs := by
      simp [utf8Encode]
    rw [utf8Decode] at ih ⊢
    rw [h, utf8Decode_encodeChar, ih]

/-! ### base64url (Node `Buffer` semantics)

`buffer.toString("base64url")` produces the canonical unpadded base64url
encoding; `Buffer.from(value, "base64url")` is lenient: characters outside
the alphabet (it also accepts the standard alphabet's `+` and `/`) are
skipped, and a trailing group contributes only its complete bytes. -/

/-- The base64url alphabet character for a sextet. -/
def sextetChar (n : Nat) : Char :=
  if n < 26 then Char.ofNat (65 + n)
  else if n < 52 then Char.ofNat (97 + (n - 26))
  else if n < 62 then Char.ofNat (48 + (n - 52))
  else if n = 62 then '-'
  else '_'

/-- The sextet value of a character, accepting both the base64url and the
standard base64 alphabets; `none` for everything else (skipped by the
lenient decoder). -/
def sextetVal (c : Char) : Option Nat :=
  if 65 ≤ c.toNat ∧ c.toNat ≤ 90 then some (c.toNat - 65)
  else if 97 ≤ c.toNat ∧ c.toNat ≤ 122 then some (c.toNat - 97 + 26)
  else if 48 ≤ c.toNat ∧ c.toNat ≤ 57 then some (c.toNat - 48 + 52)
  else if c = '-' ∨ c = '+' then some 62
  else if c = '_' ∨ c = '/' then some 63
  else none

/-- Split bytes into big-endian sextets, 3 bytes per 4 sextets, final
partial group padded with zero bits (unpadded base64url). -/
def b64Sextets : List Nat → List Nat
  | [] => []
  | [a] => [a / 4, a % 4 * 16]
  | [a, b] => [a / 4, a % 4 * 16 + b / 16, b % 16 * 4]
  | a :: b :: c :: rest =>
    (a / 4) :: (a % 4 * 16 + b / 16) :: (b % 16 * 4 + c / 64) :: (c % 64) :: b64Sextets rest

/-- `buffer.toString("base64url")`. -/
def base64urlEncode (bytes : List Nat) : List Char := (b64Sextets bytes).map sextetChar

/-- Reassemble bytes from sextets, 4 sextets per 3 bytes; a trailing group
of 2 or 3 sextets yields 1 or 2 bytes, a lone sextet yields nothing. -/
def b64Bytes : List Nat → List Nat
  | a :: b :: c :: d :: rest =>
    (a * 4 + b / 16) :: (b % 16 * 16 + c / 4) :: (c % 4 * 64 + d) :: b64Bytes rest
  | [a, b] => [a * 4 + b / 16]
  | [a, b, c] => [a * 4 + b / 16, b % 16 * 16 + c / 4]
  | _ => []

/-- `Buffer.from(value, "base64url")` (lenient). -/
def base64urlDecode (s : List Char) : List Nat := b64Bytes (s.filterMap sextetVal)

/-- The alphabet map and its inverse cancel on sextets. -/
theorem sextetVal_sextetChar : ∀ n, n < 64 → sextetVal (sextetChar n) = some n := by
  decide

/-- All sextets produced from bytes are below 64. -/
theorem b64Sextets_lt_64 : ∀ (l : List Nat), (∀ b ∈ l, b < 256) →
    ∀ x ∈ b64Sextets l, x < 64
  | [], _, x, hx => by simp [b64Sextets] at hx
  | [a], h, x, hx => by
    have ha := h a (by simp)
    simp [b64Sextets] at hx
    rcases hx with rfl | rfl <;> omega
  | [a, b], h, x, hx => by
    have ha := h a (by simp)
    have hb := h b (by simp)
    simp [b64Sextets] at hx
    rcases hx with rfl | rfl | rfl <;> omega
  | a :: b :: c :: d :: rest, h, x, hx => by
    have ha := h a (by simp)
    have hb := h b (by simp)
    have hc := h c (by simp)
    simp only [b64Sextets, List.mem_cons] at hx
    rcases hx with rfl | rfl | rfl | rfl | hmem
    · omega
    · omega
    · omega
    · omega
    · exact b64Sextets_lt_64 (d :: rest) (fun y hy => h y (by simp at hy ⊢; tauto)) x hmem
  | [a, b, c], h, x, hx => by
    have ha := h a (by simp)
    have hb := h b (by simp)
    have hc := h c (by simp)
    simp [b64Sextets] at hx
    rcases hx with rfl | rfl | rfl | rfl <;> omega

/-- Mapping sextets to alphabet characters and reading them back is the
identity. -/
theorem filterMap_sextetVal_map (l : List Nat) (h : ∀ x ∈ l, x < 64) :
    (l.map sextetChar).filterMap sextetVal = l := by
  induction l with
  | nil => rfl
  | cons x xs ih =>
    have hx := h x (by simp)
    simp only [List.map_cons, List.filterMap_cons, sextetVal_sextetChar x hx]
    rw [ih (fun y hy => h y (by simp [hy]))]

/-- Sextet splitting and byte reassembly cancel. -/
theorem b64Bytes_b64Sextets : ∀ (l : List Nat), (∀ b ∈ l, b < 256) →
    b64Bytes (b64Sextets l) = l
  | [], _ => rfl
  | [a], h => by
    have ha := h a (by simp)
    simp only [b64Sextets, b64Bytes, List.cons.injEq, and_true]
    omega
  | [a, b], h => by
    have ha := h a (by simp)
    have hb := h b (by simp)
    simp only [b64Sextets, b64Bytes, List.cons.injEq, and_true]
    constructor <;> omega
  | a :: b :: c :: rest, h => by
    have ha := h a (by simp)
    have hb := h b (by simp)
    have hc := h c (by simp)
    have ih := b64Bytes_b64Sextets rest (fun y hy => h y (by simp [hy]))
    simp only [b64Sextets, b64Bytes, ih, List.cons.injEq, and_true]
    refine ⟨by omega, by omega, by omega⟩

/-- base64url round trip: decoding the canonical encoding of a byte list
(all bytes below 256) recovers it. -/
theorem base64url_roundtrip (bs : List Nat) (h : ∀ b ∈ bs, b < 256) :
    base64urlDecode (base64urlEncode bs) = bs := by
  unfold base64urlEncode base64urlDecode
  rw [filterMap_sextetVal_map _ (b64Sextets_lt_64 bs h), b64Bytes_b64Sextets bs h]

/-! ### JSON (`JSON.stringify` escaping and a `JSON.parse` grammar parser)

`Json.num` keeps the numeric lexeme unevaluated: nothing in this subsystem
ever consults the IEEE-754 value of a JSON number. JavaScript lone
surrogates (representable neither by Lean `Char` nor by well-formed UTF-8)
are mapped to U+FFFD; no input appearing in any theorem contains them. -/

/-- JSON values as produced by `JSON.parse`. Objects keep their member
list in order (duplicate keys possible; JavaScript keeps the last). -/
inductive Json where
  | null
  | bool (b : Bool)
  | num (raw : String)
  | str (s : String)
  | arr (elems : List Json)
  | obj (members : List (String × Json))

/-- Lowercase hexadecimal digit. -/
def hexDigitChar (n : Nat) : Char :=
  if n < 10 then Char.ofNat (48 + n) else Char.ofNat (87 + n)

/-- `JSON.stringify` escaping of one character: quote and backslash get a
backslash escape, the named control escapes are used where they exist, the
remaining control characters use `\u00xx`, and everything else is verbatim. -/
def jsonEscapeChar (c : Char) : List Char :=
  if c = '"' then ['\\', '"']
  else if c = '\\' then ['\\', '\\']
  else if c.toNat = 8 then ['\\', 'b']
  else if c.toNat = 9 then ['\\', 't']
  else if c.toNat = 10 then ['\\', 'n']
  else if c.toNat = 12 then ['\\', 'f']
  else if c.toNat = 13 then ['\\', 'r']
  else if c.toNat < 0x20 then
    ['\\', 'u', '0', '0', hexDigitChar (c.toNat / 16), hexDigitChar (c.toNat % 16)]
  else [c]

/-- `JSON.stringify` escaping of a character list. -/
def jsonEscape (l : List Char) : List Char := l.flatMap jsonEscapeChar

/-- A `JSON.stringify`-serialised string literal. -/
def jsonQuote (s : String) : List Char := '"' :: (jsonEscape s.data ++ ['"'])

/-- Skip JSON whitespace. -/
def skipWs : List Char → List Char
  | [] => []
  | c :: cs => if c = ' ' ∨ c = '\t' ∨ c = '\n' ∨ c = '\r' then skipWs cs else c :: cs

/-- Hexadecimal digit value (both cases). -/
def hexDigitVal (c : Char) : Option Nat :=
  if 48 ≤ c.toNat ∧ c.toNat ≤ 57 then some (c.toNat - 48)
  else if 65 ≤ c.toNat ∧ c.toNat ≤ 70 then some (c.toNat - 55)
  else if 97 ≤ c.toNat ∧ c.toNat ≤ 102 then some (c.toNat - 87)
  else none

/-- Prepend a decoded character to a string-body parse result. -/
def consChar (ch : Char) (r : Option (List Char × List Char)) :
    Option (List Char × List Char) :=
  r.map (fun p => (ch :: p.1, p.2))

/-- Parse a JSON string body (after the opening quote) up to and including
the closing quote, returning the decoded characters and the remainder.
Fuel bounds the number of decoded characters; callers pass at least the
input length plus one. Unterminated strings, bad escapes and raw control
characters are errors, as in `JSON.parse`. -/
def parseStringBody : Nat → List Char → Option (List Char × List Char)
  | 0, _ => none
  | _ + 1, [] => none
  | fuel + 1, c :: cs =>
    if c = '"' then some ([], cs)
    else if c = '\\' then
      match cs with
      | [] => none
      | e :: cs1 =>
        if e = '"' then consChar '"' (parseStringBody fuel cs1)
        else if e = '\\' then consChar '\\' (parseStringBody fuel cs1)
        else if e = '/' then consChar '/' (parseStringBody fuel cs1)
        else if e = 'b' then consChar (Char.ofNat 8) (parseStringBody fuel cs1)
        else if e = 'f' then consChar (Char.ofNat 12) (parseStringBody fuel cs1)
        else if e = 'n' then consChar (Char.ofNat 10) (parseStringBody fuel cs1)
        else if e = 'r' then consChar (Char.ofNat 13) (parseStringBody fuel cs1)
        else if e = 't' then consChar (Char.ofNat 9) (parseStringBody fuel cs1)
        else if e = 'u' then
          match cs1 with
          | c1 :: c2 :: c3 :: c4 :: cs2 =>
            match hexDigitVal c1, hexDigitVal c2, hexDigitVal c3, hexDigitVal c4 with
            | some h1, some h2, some h3, some h4 =>
              let n := h1 * 4096 + h2 * 256 + h3 * 16 + h4
              if 0xD800 ≤ n ∧ n < 0xDC00 then
                match cs2 with
                | '\\' :: 'u' :: d1 :: d2 :: d3 :: d4 :: cs3 =>
                  match hexDigitVal d1, hexDigitVal d2, hexDigitVal d3, hexDigitVal d4 with
                  | some g1, some g2, some g3, some g4 =>
                    let m := g1 * 4096 + g2 * 256 + g3 * 16 + g4
                    if 0xDC00 ≤ m ∧ m < 0xE000 then
                      consChar (Char.ofNat (0x10000 + (n - 0xD800) * 1024 + (m - 0xDC00)))
                        (parseStringBody fuel cs3)
                    else consChar replacementChar (parseStringBody fuel cs2)
                  | _, _, _, _ => consChar replacementChar (parseStringBody fuel cs2)
                | _ => consChar replacementChar (parseStringBody fuel cs2)
              else if 0xDC00 ≤ n ∧ n < 0xE000 then
                consChar replacementChar (parseStringBody fuel cs2)
              else consChar (Char.ofNat n) (parseStringBody fuel cs2)
            | _, _, _, _ => none
          | _ => none
        else none
    else if c.toNat < 0x20 then none
    else consChar c (parseStringBody fuel cs)

/-- ASCII digit test. -/
def isDigitChar (c : Char) : Bool := decide (48 ≤ c.toNat ∧ c.toNat ≤ 57)

/-- Optional fraction part of a JSON number. -/
def parseFrac (cs : List Char) : Option (List Char × List Char) :=
  match cs with
  | '.' :: t =>
    match t.takeWhile isDigitChar with
    | [] => none
    | ds => some ('.' :: ds, t.dropWhile isDigitChar)
  | _ => some ([], cs)

/-- Optional exponent part of a JSON number. -/
def parseExp (cs : List Char) : Option (List Char × List Char) :=
  match cs with
  | e :: t =>
    if e = 'e' ∨ e = 'E' then
      match t with
      | '+' :: r =>
        match r.takeWhile isDigitChar with
        | [] => none
        | ds => some (e :: '+' :: ds, r.dropWhile isDigitChar)
      | '-' :: r =>
        match r.takeWhile isDigitChar with
        | [] => none
        | ds => some (e :: '-' :: ds, r.dropWhile isDigitChar)
      | _ =>
        match t.takeWhile isDigitChar with
        | [] => none
        | ds => some (e :: ds, t.dropWhile isDigitChar)
    else some ([], cs)
  | [] => some ([], [])

/-- Parse a JSON number lexeme: `-? (0 | [1-9][0-9]*) frac? exp?`. -/
def parseNumber (cs : List Char) : Option (List Char × List Char) :=
  let signed : Option (List Char × List Char) :=
    match cs with
    | '-' :: t =>
      match t with
      | '0' :: t1 => some (['-', '0'], t1)
      | c :: t1 =>
        if isDigitChar c then
          some ('-' :: c :: t1.takeWhile isDigitChar, t1.dropWhile isDigitChar)
        else none
      | [] => none
    | '0' :: t1 => some (['0'], t1)
    | c :: t1 =>
      if isDigitChar c then
        some (c :: t1.takeWhile isDigitChar, t1.dropWhile isDigitChar)
      else none
    | [] => none
  match signed with
  | none => none
  | some (intPart, r1) =>
    match parseFrac r1 with
    | none => none
    | some (fracPart, r2) =>
      match parseExp r2 with
      | none => none
      | some (expPart, r3) => some (intPart ++ fracPart ++ expPart, r3)

mutual

/-- Parse one JSON value (modelling `JSON.parse`'s grammar). The fuel
bounds the combined nesting depth and member count; `jsonParse` passes the
input length plus one, which always suffices since every recursion consumes
input. -/
def parseValue : Nat → List Char → Option (Json × List Char)
  | 0, _ => none
  | fuel + 1, cs =>
    match skipWs cs with
    | [] => none
    | c :: rest =>
      if c = '"' then
        match parseStringBody (rest.length + 1) rest with
        | some (s, r) => some (.str (String.mk s), r)
        | none => none
      else if c = '{' then
        match skipWs rest with
        | [] => none
        | c2 :: r2 =>
          if c2 = '}' then some (.obj [], r2)
          else (parseMembers fuel (c2 :: r2)).map (fun q => (.obj q.1, q.2))
      else if c = '[' then
        match skipWs rest with
        | [] => none
        | c2 :: r2 =>
          if c2 = ']' then some (.arr [], r2)
          else (parseElems fuel (c2 :: r2)).map (fun q => (.arr q.1, q.2))
      else if c = 't' then
        match rest with
        | 'r' :: 'u' :: 'e' :: r => some (.bool true, r)
        | _ => none
      else if c = 'f' then
        match rest with
        | 'a' :: 'l' :: 's' :: 'e' :: r => some (.bool false, r)
        | _ => none
      else if c = 'n' then
        match rest with
        | 'u' :: 'l' :: 'l' :: r => some (.null, r)
        | _ => none
      else
        match parseNumber (c :: rest) with
        | some (tok, r) => some (.num (String.mk tok), r)
        | none => none

/-- Parse the non-empty member list of a JSON object, consuming the
closing brace. -/
def parseMembers : Nat → List Char → Option (List (String × Json) × List Char)
  | 0, _ => none
  | fuel + 1, cs =>
    match skipWs cs with
    | [] => none
    | c :: rest =>
      if c = '"' then
        match parseStringBody (rest.length + 1) rest with
        | some (key, r1) =>
          match skipWs r1 with
          | [] => none
          | c1 :: r2 =>
            if c1 = ':' then
              match parseValue fuel r2 with
              | some (v, r3) =>
                match skipWs r3 with
                | [] => none
                | c3 :: r4 =>
                  if c3 = ',' then
                    (parseMembers fuel r4).map (fun q => ((String.mk key, v) :: q.1, q.2))
                  else if c3 = '}' then some ([(String.mk key, v)], r4)
                  else none
              | none => none
            else none
        | none => none
      else none

/-- Parse the non-empty element list of a JSON array, consuming the
closing bracket. -/
def parseElems : Nat → List Char → Option (List Json × List Char)
  | 0, _ => none
  | fuel + 1, cs =>
    match parseValue fuel cs with
    | some (v, r1) =>
      match skipWs r1 with
      | [] => none
      | c1 :: r2 =>
        if c1 = ',' then (parseElems fuel r2).map (fun q => (v :: q.1, q.2))
        else if c1 = ']' then some ([v], r2)
        else none
    | none => none

end

/-- `JSON.parse`: parse one value, allow trailing whitespace, reject
trailing garbage (returning `none` where `JSON.parse` throws). -/
def jsonParse (s : List Char) : Option Json :=
  match parseValue (s.length + 1) s with
  | some (v, rest) => if skipWs rest = [] then some v else none
  | none => none

/-- `GithubStateCookiePayload = { state: string; redirectTo: string }`. -/
structure GithubStateCookiePayload where
  state : String
  redirectTo : String
deriving DecidableEq, Repr

/-- `JSON.stringify(payload)` for the handshake state cookie: an object
literal with the fields in declaration order. -/
def stringifyStatePayload (p : GithubStateCookiePayload) : List Char :=
  "\x7b\"state\":".data ++ jsonQuote p.state ++ ",\"redirectTo\":".data ++
    jsonQuote p.redirectTo ++ "\x7d".data

/-- `encodeStateCookie(payload)`:
`Buffer.from(JSON.stringify(payload), "utf-8").toString("base64url")`. -/
def encodeStateCookie (p : GithubStateCookiePayload) : String :=
  String.mk (base64urlEncode (utf8Encode (stringifyStatePayload p)))

/-- `decodeStateCookie(value)`: falsy values give `null`; otherwise decode
base64url, decode UTF-8 and `JSON.parse`, with any parse error caught and
turned into `null`. The parsed value is returned **as is** (the source
casts it to the payload type without validating its shape). -/
def decodeStateCookie (value : Option String) : Option Json :=
  match value with
  | none => none
  | some v =>
    if v = "" then none
    else jsonParse (utf8Decode (base64urlDecode v.data))

/-- The JSON value of a handshake state payload. -/
def statePayloadJson (p : GithubStateCookiePayload) : Json :=
  .obj [("state", .str p.state), ("redirectTo", .str p.redirectTo)]

/-- Escaping never shortens a character list. -/
theorem jsonEscape_length_ge (l : List Char) : l.length ≤ (jsonEscape l).length := by
  induction l with
  | nil => simp [jsonEscape]
  | cons c cs ih =>
    have h1 : 1 ≤ (jsonEscapeChar c).length := by
      unfold jsonEscapeChar
      split_ifs <;> simp
    simp only [jsonEscape, List.flatMap_cons, List.length_append, List.length_cons] at ih ⊢
    omega

/-- The hex digit map and its inverse cancel. -/
theorem hexDigitVal_hexDigitChar : ∀ n, n < 16 → hexDigitVal (hexDigitChar n) = some n := by
  decide

/-- Step lemma: closing quote. -/
theorem psb_quote (f : Nat) (T : List Char) :
    parseStringBody (f + 1) ('"' :: T) = some ([], T) := by
  simp [parseStringBody]

/-- Step lemma: escaped quote. -/
theorem psb_escQuote (f : Nat) (T : List Char) :
    parseStringBody (f + 1) ('\\' :: '"' :: T) = consChar '"' (parseStringBody f T) := by
  simp only [parseStringBody]
  norm_num [show ('\\':Char) ≠ '"' by decide]

/-- Step lemma: escaped backslash. -/
theorem psb_escBackslash (f : Nat) (T : List Char) :
    parseStringBody (f + 1) ('\\' :: '\\' :: T) = consChar '\\' (parseStringBody f T) := by
  simp only [parseStringBody]
  norm_num [show ('\\':Char) ≠ '"' by decide]

/-- Step lemma: `\b`. -/
theorem psb_escB (f : Nat) (T : List Char) :
    parseStringBody (f + 1) ('\\' :: 'b' :: T) =
      consChar (Char.ofNat 8) (parseStringBody f T) := by
  simp only [parseStringBody]
  norm_num [show ('\\':Char) ≠ '"' by decide, show ('b':Char) ≠ '"' by decide,
    show ('b':Char) ≠ '\\' by decide, show ('b':Char) ≠ '/' by decide]

/-- Step lemma: `\t`. -/
theorem psb_escT (f : Nat) (T : List Char) :
    parseStringBody (f + 1) ('\\' :: 't' :: T) =
      consChar (Char.ofNat 9) (parseStringBody f T) := by
  simp only [parseStringBody]
  norm_num [show ('\\':Char) ≠ '"' by decide, show ('t':Char) ≠ '"' by decide,
    show ('t':Char) ≠ '\\' by decide, show ('t':Char) ≠ '/' by decide,
    show ('t':Char) ≠ 'b' by decide, show ('t':Char) ≠ 'f' by decide,
    show ('t':Char) ≠ 'n' by decide, show ('t':Char) ≠ 'r' by decide]

/-- Step lemma: `\n`. -/
theorem psb_escN (f : Nat) (T : List Char) :
    parseStringBody (f + 1) ('\\' :: 'n' :: T) =
      consChar (Char.ofNat 10) (parseStringBody f T) := by
  simp only [parseStringBody]
  norm_num [show ('\\':Char) ≠ '"' by decide, show ('n':Char) ≠ '"' by decide,
    show ('n':Char) ≠ '\\' by decide, show ('n':Char) ≠ '/' by decide,
    show ('n':Char) ≠ 'b' by decide, show ('n':Char) ≠ 'f' by decide]

/-- Step lemma: `\f`. -/
theorem psb_escF (f : Nat) (T : List Char) :
    parseStringBody (f + 1) ('\\' :: 'f' :: T) =
      consChar (Char.ofNat 12) (parseStringBody f T) := by
  simp only [parseStringBody]
  norm_num [show ('\\':Char) ≠ '"' by decide, show ('f':Char) ≠ '"' by decide,
    show ('f':Char) ≠ '\\' by decide, show ('f':Char) ≠ '/' by decide,
    show ('f':Char) ≠ 'b' by decide]

/-- Step lemma: `\r`. -/
theorem psb_escR (f : Nat) (T : List Char) :
    parseStringBody (f + 1) ('\\' :: 'r' :: T) =
      consChar (Char.ofNat 13) (parseStringBody f T) := by
  simp only [parseStringBody]
  norm_num [show ('\\':Char) ≠ '"' by decide, show ('r':Char) ≠ '"' by decide,
    show ('r':Char) ≠ '\\' by decide, show ('r':Char) ≠ '/' by decide,
    show ('r':Char) ≠ 'b' by decide, show ('r':Char) ≠ 'f' by decide,
    show ('r':Char) ≠ 'n' by decide]

/-- Step lemma: `\u00xx` escapes of control characters. -/
theorem psb_escU (f : Nat) (T : List Char) (n : Nat) (hn : n < 0x20) :
    parseStringBody (f + 1)
        ('\\' :: 'u' :: '0' :: '0' :: hexDigitChar (n / 16) :: hexDigitChar (n % 16) :: T) =
      consChar (Char.ofNat n) (parseStringBody f T) := by
  have e1 : hexDigitVal (hexDigitChar (n / 16)) = some (n / 16) :=
    hexDigitVal_hexDigitChar _ (by omega)
  have e2 : hexDigitVal (hexDigitChar (n % 16)) = some (n % 16) :=
    hexDigitVal_hexDigitChar _ (by omega)
  have e0 : hexDigitVal '0' = some 0 := by decide
  simp only [parseStringBody]
  norm_num [e0, e1, e2, show ('\\':Char) ≠ '"' by decide, show ('u':Char) ≠ '"' by decide,
    show ('u':Char) ≠ '\\' by decide, show ('u':Char) ≠ '/' by decide,
    show ('u':Char) ≠ 'b' by decide, show ('u':Char) ≠ 'f' by decide,
    show ('u':Char) ≠ 'n' by decide, show ('u':Char) ≠ 'r' by decide,
    show ('u':Char) ≠ 't' by decide]
  rw [if_neg (by omega), if_neg (by omega)]
  have hval : n / 16 * 16 + n % 16 = n := by omega
  rw [hval]

/-- Step lemma: an ordinary character. -/
theorem psb_plain (f : Nat) (T : List Char) (c : Char) (h1 : c ≠ '"') (h2 : c ≠ '\\')
    (h3 : ¬ c.toNat < 0x20) :
    parseStringBody (f + 1) (c :: T) = consChar c (parseStringBody f T) := by
  simp only [parseStringBody]
  rw [if_neg h1, if_neg h2, if_neg h3]

/-- Parsing an escaped string body recovers the original characters:
`parseStringBody` applied to `jsonEscape l ++ '"' :: rest` (with fuel
exceeding the number of decoded characters) yields `(l, rest)`. -/
theorem parseStringBody_escape : ∀ (l : List Char) (fuel : Nat) (rest : List Char),
    l.length < fuel →
    parseStringBody fuel (jsonEscape l ++ ('"' :: rest)) = some (l, rest) := by
  intro l
  induction l with
  | nil =>
    intro fuel rest hf
    match fuel, hf with
    | f + 1, _ =>
      show parseStringBody (f + 1) ('"' :: rest) = some ([], rest)
      exact psb_quote f rest
  | cons c cs ih =>
    intro fuel rest hf
    match fuel, hf with
    | f + 1, hf =>
      have hff : cs.length < f := by
        simp only [List.length_cons] at hf
        omega
      have ihx := ih f rest hff
      have hofn : Char.ofNat c.toNat = c := Char.ofNat_toNat c
      have hesc : jsonEscape (c :: cs) ++ ('"' :: rest) =
          jsonEscapeChar c ++ (jsonEscape cs ++ ('"' :: rest)) := by
        simp [jsonEscape]
      rw [hesc]
      by_cases h1 : c = '"'
      · subst h1
        rw [show jsonEscapeChar '"' = ['\\', '"'] from rfl]
        rw [List.cons_append, List.cons_append, List.nil_append, psb_escQuote, ihx]
        rfl
      · by_cases h2 : c = '\\'
        · subst h2
          rw [show jsonEscapeChar '\\' = ['\\', '\\'] from rfl]
          rw [List.cons_append, List.cons_append, List.nil_append, psb_escBackslash, ihx]
          rfl
        · by_cases h3 : c.toNat = 8
          · rw [show jsonEscapeChar c = ['\\', 'b'] from by
              simp [jsonEscapeChar, h1, h2, h3]]
            rw [List.cons_append, List.cons_append, List.nil_append, psb_escB, ihx]
            simp only [consChar, Option.map_some]
            rw [← h3]
            simp [hofn]
          · by_cases h4 : c.toNat = 9
            · rw [show jsonEscapeChar c = ['\\', 't'] from by
                simp [jsonEscapeChar, h1, h2, h3, h4]]
              rw [List.cons_append, List.cons_append, List.nil_append, psb_escT, ihx]
              simp only [consChar, Option.map_some]
              rw [← h4]
              simp [hofn]
            · by_cases h5 : c.toNat = 10
              · rw [show jsonEscapeChar c = ['\\', 'n'] from by
                  simp [jsonEscapeChar, h1, h2, h3, h4, h5]]
                rw [List.cons_append, List.cons_append, List.nil_append, psb_escN, ihx]
                simp only [consChar, Option.map_some]
                rw [← h5]
                simp [hofn]
              · by_cases h6 : c.toNat = 12
                · rw [show jsonEscapeChar c = ['\\', 'f'] from by
                    simp [jsonEscapeChar, h1, h2, h3, h4, h5, h6]]
                  rw [List.cons_append, List.cons_append, List.nil_append, psb_escF, ihx]
                  simp only [consChar, Option.map_some]
                  rw [← h6]
                  simp [hofn]
                · by_cases h7 : c.toNat = 13
                  · rw [show jsonEscapeChar c = ['\\', 'r'] from by
                      simp [jsonEscapeChar, h1, h2, h3, h4, h5, h6, h7]]
                    rw [List.cons_append, List.cons_append, List.nil_append, psb_escR, ihx]
                    simp only [consChar, Option.map_some]
                    rw [← h7]
                    simp [hofn]
                  · by_cases h8 : c.toNat < 0x20
                    · rw [show jsonEscapeChar c = ['\\', 'u', '0', '0',
                          hexDigitChar (c.toNat / 16), hexDigitChar (c.toNat % 16)] from by
                        simp [jsonEscapeChar, h1, h2, h3, h4, h5, h6, h7, h8]]
                      rw [List.cons_append, List.cons_append, List.cons_append,
                        List.cons_append, List.cons_append, List.cons_append,
                        List.nil_append, psb_escU f _ c.toNat h8, ihx]
                      simp [consChar, hofn]
                    · rw [show jsonEscapeChar c = [c] from by
                        simp [jsonEscapeChar, h1, h2, h3, h4, h5, h6, h7, h8]]
                      rw [List.cons_append, List.nil_append,
                        psb_plain f _ c h1 h2 h8, ihx]
                      rfl

/-- `skipWs` is the identity on lists starting with a non-whitespace
character. -/
theorem skipWs_cons (c : Char) (l : List Char)
    (h : ¬(c = ' ' ∨ c = '\t' ∨ c = '\n' ∨ c = '\r')) : skipWs (c :: l) = c :: l := by
  simp [skipWs, h]

/-- Parsing a serialised string literal yields the original string. -/
theorem parseValue_quote (f : Nat) (s : String) (X : List Char) :
    parseValue (f + 1) (jsonQuote s ++ X) = some (.str s, X) := by
  have hsh : jsonQuote s ++ X = '"' :: (jsonEscape s.data ++ ('"' :: X)) := by
    simp [jsonQuote]
  have hlen : s.data.length < (jsonEscape s.data ++ ('"' :: X)).length + 1 := by
    have := jsonEscape_length_ge s.data
    simp only [List.length_append, List.length_cons]
    omega
  rw [hsh]
  conv_lhs => rw [parseValue.eq_def]
  dsimp only
  rw [skipWs_cons _ _ (by decide)]
  dsimp only
  rw [if_pos rfl, parseStringBody_escape s.data _ X hlen]

/-- Parsing the final `"key":"value"}` member of an object. -/
theorem parseMembers_last (f : Nat) (key val : String) (X : List Char) :
    parseMembers (f + 2) (jsonQuote key ++ (':' :: (jsonQuote val ++ ('}' :: X)))) =
      some ([(key, .str val)], X) := by
  have hsh : jsonQuote key ++ (':' :: (jsonQuote val ++ ('}' :: X))) =
      '"' :: (jsonEscape key.data ++ ('"' :: (':' :: (jsonQuote val ++ ('}' :: X))))) := by
    simp [jsonQuote]
  rw [hsh]
  conv_lhs => rw [parseMembers.eq_def]
  dsimp only
  rw [skipWs_cons _ _ (by decide)]
  dsimp only
  rw [if_pos rfl]
  rw [parseStringBody_escape key.data _ _ (by
    have := jsonEscape_length_ge key.data
    simp only [List.length_append, List.length_cons]
    omega)]
  dsimp only
  rw [skipWs_cons _ _ (by decide)]
  dsimp only
  rw [if_pos rfl]
  rw [parseValue_quote f val ('}' :: X)]
  dsimp only
  rw [skipWs_cons _ _ (by decide)]
  dsimp only
  rw [if_neg (by decide), if_pos rfl]

/-- Parsing a `"key":"value",` member followed by further members. -/
theorem parseMembers_step (f : Nat) (key val : String) (T : List Char) :
    parseMembers (f + 2) (jsonQuote key ++ (':' :: (jsonQuote val ++ (',' :: T)))) =
      (parseMembers (f + 1) T).map (fun q => ((key, Json.str val) :: q.1, q.2)) := by
  have hsh : jsonQuote key ++ (':' :: (jsonQuote val ++ (',' :: T))) =
      '"' :: (jsonEscape key.data ++ ('"' :: (':' :: (jsonQuote val ++ (',' :: T))))) := by
    simp [jsonQuote]
  rw [hsh]
  conv_lhs => rw [parseMembers.eq_def]
  dsimp only
  rw [skipWs_cons _ _ (by decide)]
  dsimp only
  rw [if_pos rfl]
  rw [parseStringBody_escape key.data _ _ (by
    have := jsonEscape_length_ge key.data
    simp only [List.length_append, List.length_cons]
    omega)]
  dsimp only
  rw [skipWs_cons _ _ (by decide)]
  dsimp only
  rw [if_pos rfl]
  rw [parseValue_quote f val (',' :: T)]
  dsimp only
  rw [skipWs_cons _ _ (by decide)]
  dsimp only
  rw [if_pos rfl]

/-- Parsing the serialised handshake payload yields its JSON object. -/
theorem parseValue_statePayload (f : Nat) (p : GithubStateCookiePayload) (X : List Char) :
    parseValue (f + 4) (stringifyStatePayload p ++ X) = some (statePayloadJson p, X) := by
  have hq1 : jsonQuote "state" = ['"', 's', 't', 'a', 't', 'e', '"'] := by decide
  have hq2 : jsonQuote "redirectTo" =
      ['"', 'r', 'e', 'd', 'i', 'r', 'e', 'c', 't', 'T', 'o', '"'] := by decide
  have hsh : stringifyStatePayload p ++ X =
      '{' :: '"' :: 's' :: 't' :: 'a' :: 't' :: 'e' :: '"' :: ':' ::
        (jsonQuote p.state ++ ',' :: '"' :: 'r' :: 'e' :: 'd' :: 'i' :: 'r' :: 'e' ::
          'c' :: 't' :: 'T' :: 'o' :: '"' :: ':' ::
          (jsonQuote p.redirectTo ++ '}' :: X)) := by
    simp [stringifyStatePayload, jsonQuote]
  have hregroup : '"' :: 's' :: 't' :: 'a' :: 't' :: 'e' :: '"' :: ':' ::
        (jsonQuote p.state ++ ',' :: '"' :: 'r' :: 'e' :: 'd' :: 'i' :: 'r' :: 'e' ::
          'c' :: 't' :: 'T' :: 'o' :: '"' :: ':' ::
          (jsonQuote p.redirectTo ++ '}' :: X)) =
      jsonQuote "state" ++ ':' :: (jsonQuote p.state ++ ',' ::
        (jsonQuote "redirectTo" ++ ':' :: (jsonQuote p.redirectTo ++ '}' :: X))) := by
    rw [hq1, hq2]
    simp
  rw [hsh]
  conv_lhs => rw [parseValue.eq_def]
  dsimp only
  rw [skipWs_cons _ _ (by decide)]
  dsimp only
  rw [if_neg (by decide), if_pos rfl]
  rw [skipWs_cons _ _ (by decide)]
  dsimp only
  rw [if_neg (by decide)]
  rw [hregroup]
  rw [show f + 3 = (f + 1) + 2 from by omega,
    parseMembers_step (f + 1) "state" p.state _]
  rw [show f + 1 + 1 = f + 2 from by omega,
    parseMembers_last f "redirectTo" p.redirectTo X]
  simp [statePayloadJson]

/-- Encoding one character never produces the empty byte list. -/
theorem utf8EncodeChar_ne_nil (c : Char) : utf8EncodeChar c ≠ [] := by
  unfold utf8EncodeChar
  dsimp only
  split_ifs <;> simp

/-- The canonical base64url encoding of a nonempty byte list is nonempty. -/
theorem base64urlEncode_ne_nil (a : Nat) (l : List Nat) :
    base64urlEncode (a :: l) ≠ [] := by
  unfold base64urlEncode
  match l with
  | [] => simp [b64Sextets]
  | [b] => simp [b64Sextets]
  | b :: c :: rest => simp [b64Sextets]

/-- The serialised handshake payload starts with a brace. -/
theorem stringifyStatePayload_head (p : GithubStateCookiePayload) :
    ∃ t, stringifyStatePayload p = '{' :: t :=
  ⟨"\"state\":".data ++ jsonQuote p.state ++ ",\"redirectTo\":".data ++
      jsonQuote p.redirectTo ++ "\x7d".data,
    by simp [stringifyStatePayload]⟩

/-- C7 (counterexample). The claim says `decode` returns `null` on every
input that is not a valid encoded handshake state. It does not:
`decodeStateCookie` returns whatever `JSON.parse` produced, without
validating its shape. The input `"ImFiYyI"` — base64url for the JSON
document `"abc"` — is not the encoding of any handshake state, yet decoding
it yields the (non-null) JSON string `"abc"`. -/
theorem decodeStateCookie_garbage_not_null :
    decodeStateCookie (some "ImFiYyI") = some (Json.str "abc") ∧
    decodeStateCookie (some "ImFiYyI") ≠ none :=
  ⟨rfl, fun h => Option.noConfusion ((show decodeStateCookie (some "ImFiYyI") =
    some (Json.str "abc") from rfl) ▸ h)⟩

/-- The codec round trip, as a reusable lemma: decoding an encoded
handshake payload recovers exactly its JSON object. -/
theorem decode_encode_statePayload (p : GithubStateCookiePayload) :
    decodeStateCookie (some (encodeStateCookie p)) = some (statePayloadJson p) := by
  obtain ⟨t, ht⟩ := stringifyStatePayload_head p
  have hne : encodeStateCookie p ≠ "" := by
    unfold encodeStateCookie
    rw [ht]
    intro h
    have hd : base64urlEncode (utf8Encode ('{' :: t)) = [] := congrArg String.data h
    have : utf8Encode ('{' :: t) = utf8EncodeChar '{' ++ utf8Encode t := by
      simp [utf8Encode]
    rw [this] at hd
    rcases he : utf8EncodeChar '{' with _ | ⟨b, bs⟩
    · exact utf8EncodeChar_ne_nil '{' he
    · rw [he] at hd
      exact base64urlEncode_ne_nil b _ (by simpa using hd)
  unfold decodeStateCookie
  dsimp only
  rw [if_neg hne]
  have hdata : (encodeStateCookie p).data =
      base64urlEncode (utf8Encode (stringifyStatePayload p)) := rfl
  rw [hdata, base64url_roundtrip _ (utf8Encode_lt_256 _), utf8Decode_utf8Encode]
  unfold jsonParse
  have hlen : 3 ≤ (stringifyStatePayload p).length := by
    simp [stringifyStatePayload]
  obtain ⟨k, hk⟩ : ∃ k, (stringifyStatePayload p).length + 1 = k + 4 :=
    ⟨(stringifyStatePayload p).length - 3, by omega⟩
  rw [hk]
  rw [show stringifyStatePayload p = stringifyStatePayload p ++ [] from
    (List.append_nil _).symm]
  rw [parseValue_statePayload k p []]
  simp [skipWs]

/-- C7 (amended). State codec round trip and totality: for every handshake
state `p`, `decodeStateCookie (encodeStateCookie p)` recovers exactly the
JSON object `{state, redirectTo}` of `p`; `decode` is a total function (it
never throws), returning `null` on `null`/`undefined`, on the empty string,
and on input whose decoded bytes are not valid JSON — but input that
decodes to valid JSON of some other shape is returned unvalidated rather
than rejected. -/
theorem decodeStateCookie_encodeStateCookie (p : GithubStateCookiePayload) :
    decodeStateCookie (some (encodeStateCookie p)) = some (statePayloadJson p) ∧
    decodeStateCookie none = none ∧
    decodeStateCookie (some "") = none ∧
    decodeStateCookie (some "!!! not base64 json !!!") = none :=
  ⟨decode_encode_statePayload p, rfl, rfl, rfl⟩

/- ------------------------------------------------------------------ -/
/-! ## OAuth callback orchestrator
(`src/app/api/auth/github/callback/route.ts`)

The route is modelled as a pure function from the request inputs
(`code`/`state` query parameters, handshake cookie value) and an
environment of oracle results (code-exchange outcome, profile, primary
email, identity store, generated id, timestamp) to the response, the final
identity store, and the **trace of provider/database effects** in the
order they are performed. JavaScript property accesses on the decoded
cookie value (`storedState.state`, `storedState.redirectTo`) follow
JavaScript semantics: missing properties are `undefined`, and strict
inequality with a string rejects every non-string. -/

/-- JavaScript truthiness of a JSON value. A numeric lexeme is falsy when
it denotes zero (no nonzero mantissa digit); denormal underflow to zero is
not modelled. -/
def jsTruthy : Json → Bool
  | .null => false
  | .bool b => b
  | .num raw => raw.data.any (fun c => decide (49 ≤ c.toNat ∧ c.toNat ≤ 57))
  | .str s => s ≠ ""
  | .arr _ => true
  | .obj _ => true

/-- JavaScript property access on a parsed JSON value: objects yield their
last binding for the key (`JSON.parse` keeps the last duplicate), anything
else yields `undefined`. -/
def Json.getField : Json → String → Option Json
  | .obj members, k => (members.reverse.find? (fun m => m.1 == k)).map (fun m => m.2)
  | _, _ => none

/-- `!storedState || storedState.state !== state`, negated: the handshake
passes validation iff the decoded cookie is truthy and its `state` property
is the same string as the `state` query parameter. -/
def stateValid (storedState : Option Json) (stateParam : String) : Bool :=
  match storedState with
  | none => false
  | some j =>
    jsTruthy j &&
      match j.getField "state" with
      | some (.str s) => s == stateParam
      | _ => false

/-- `GithubProfile` as returned by the provider profile endpoint. -/
structure GithubProfile where
  id : Option Int
  login : String
  name : Option String
  email : Option String
  avatar_url : Option String
deriving DecidableEq, Repr

/-- A row of the `users` table (`src/db/schema.ts`). -/
structure User where
  id : String
  githubId : String
  login : String
  name : Option String
  email : Option String
  avatarUrl : Option String
  createdAt : String
  updatedAt : String
  lastLoginAt : String
  isCreator : Bool
deriving DecidableEq, Repr

/-- Provider/database effects of one callback request, in order. -/
inductive CallbackEffect where
  | exchangeCode
  | fetchProfile
  | fetchPrimaryEmail
  | dbFindByGithubId
  | dbUpdate (id : String)
  | dbInsert (githubId : String)
deriving DecidableEq, Repr

/-- Oracle results for the callback's external calls. -/
structure CallbackEnv where
  exchange : Except String String
  profile : Except String GithubProfile
  primaryEmail : Option String
  db : List User
  freshId : String
  now : String
deriving Repr

/-- The callback's response, reduced to what the claims observe. -/
inductive CallbackResponse where
  | json400 (error : String)
  | redirect (path : String) (tokens : TokenPair)
  | redirectAuthError (message : String)
deriving DecidableEq, Repr

/-- The update applied to an existing user row (`userUpdate` in the
source): mutable profile fields, `updatedAt` and `lastLoginAt` — never
`id`, `githubId` or `createdAt`. -/
def applyUserUpdate (profile : GithubProfile) (primaryEmail : Option String)
    (now : String) (u : User) : User :=
  { u with
      login := profile.login
      name := some (profile.name.getD profile.login)
      email := primaryEmail
      avatarUrl := profile.avatar_url
      updatedAt := now
      lastLoginAt := now }

/-- `GET /api/auth/github/callback`. -/
def callbackGET (secret : String) (nowSeconds : Nat) (env : CallbackEnv)
    (code stateParam cookieValue : Option String) :
    CallbackResponse × List User × List CallbackEffect :=
  match code, stateParam with
  | some c, some st =>
    if c = "" ∨ st = "" then
      (.json400 "Missing OAuth parameters.", env.db, [])
    else if ¬ stateValid (decodeStateCookie cookieValue) st then
      (.json400 "Invalid or expired OAuth state.", env.db, [])
    else
      match env.exchange with
      | .error e => (.redirectAuthError e, env.db, [.exchangeCode])
      | .ok _ =>
        match env.profile with
        | .error e => (.redirectAuthError e, env.db, [.exchangeCode, .fetchProfile])
        | .ok profile =>
          let primaryEmail : Option String :=
            match profile.email with
            | some e => some e
            | none => env.primaryEmail
          let effs : List CallbackEffect :=
            match profile.email with
            | some _ => [.exchangeCode, .fetchProfile]
            | none => [.exchangeCode, .fetchProfile, .fetchPrimaryEmail]
          let githubId := match profile.id with
            | some i => toString i
            | none => ""
          if githubId = "" then
            (.redirectAuthError "GitHub profile id missing.", env.db, effs)
          else
            match env.db.find? (fun u => u.githubId == githubId) with
            | some existing =>
              let db' := env.db.map (fun u =>
                if u.id == existing.id then
                  applyUserUpdate profile primaryEmail env.now u
                else u)
              let tokens := issueTokenPair secret existing.id nowSeconds
              let redirectPath := sanitizeRedirectPath
                (match (decodeStateCookie cookieValue).bind
                    (fun j => j.getField "redirectTo") with
                  | some (.str s) => some s
                  | _ => none)
                DEFAULT_POST_LOGIN_REDIRECT
              (.redirect redirectPath tokens, db',
                effs ++ [.dbFindByGithubId, .dbUpdate existing.id])
            | none =>
              let inserted : User :=
                { id := env.freshId
                  githubId := githubId
                  login := profile.login
                  name := some (profile.name.getD profile.login)
                  email := primaryEmail
                  avatarUrl := profile.avatar_url
                  createdAt := env.now
                  updatedAt := env.now
                  lastLoginAt := env.now
                  isCreator := false }
              let db' := env.db ++ [inserted]
              let tokens := issueTokenPair secret env.freshId nowSeconds
              let redirectPath := sanitizeRedirectPath
                (match (decodeStateCookie cookieValue).bind
                    (fun j => j.getField "redirectTo") with
                  | some (.str s) => some s
                  | _ => none)
                DEFAULT_POST_LOGIN_REDIRECT
              (.redirect redirectPath tokens, db',
                effs ++ [.dbFindByGithubId, .dbInsert githubId])
  | _, _ => (.json400 "Missing OAuth parameters.", env.db, [])

/-- Mapping a function that fixes every element of a list is the identity. -/
theorem map_fixes (l : List User) (f : User → User) (h : ∀ x ∈ l, f x = x) :
    l.map f = l := by
  rw [List.map_congr_left h]
  simp

/- ------------------------------------------------------------------ -/
/-! ### Claims C6 and C8 -/

/-- C6 (confirmed). For every callback request whose handshake state
cookie is absent, undecodable, or whose stored nonce differs from the
`state` query parameter (with `code` and `state` both present and
nonempty), the login attempt is rejected with the 400 response and the
effect trace is empty: no code exchange, no profile fetch, no email fetch
and no identity-store access happens before state validation succeeds, and
the store is unchanged. -/
theorem callback_rejects_before_provider_calls (secret : String) (nowSeconds : Nat)
    (env : CallbackEnv) (c st : String) (cookieValue : Option String)
    (hc : c ≠ "") (hst : st ≠ "")
    (hinvalid : stateValid (decodeStateCookie cookieValue) st = false) :
    callbackGET secret nowSeconds env (some c) (some st) cookieValue =
      (.json400 "Invalid or expired OAuth state.", env.db, []) := by
  unfold callbackGET
  dsimp only
  rw [if_neg (by tauto), if_pos (by simp [hinvalid])]

/-- Witness for C6: a concrete request with a present `code`/`state` but a
missing handshake cookie is rejected with no provider or store effect. -/
theorem callback_rejects_before_provider_calls_witness :
    callbackGET "k" 0 ⟨.ok "tok", .ok ⟨some 42, "octo", none, none, none⟩, none, [],
        "fresh", "2026-01-01"⟩ (some "abc") (some "nonce") none =
      (.json400 "Invalid or expired OAuth state.", [], []) :=
  callback_rejects_before_provider_calls "k" 0
    ⟨.ok "tok", .ok ⟨some 42, "octo", none, none, none⟩, none, [], "fresh", "2026-01-01"⟩
    "abc" "nonce" none (by decide) (by decide) (by decide)

set_option maxHeartbeats 1600000 in
/-- C8 (confirmed). Identity upsert stability: when the identity store
already holds exactly one Local Identity `u0` with the external
`providerId` (`githubId`, nonempty, with unique row ids as the schema's
unique indexes guarantee), a second completed login for that same
`providerId` creates no new row — the store becomes `pre ++ [updated u0]
++ post`, whose count of rows with that `githubId` is still one — and the
update leaves `id`, `githubId` and `createdAt` untouched while setting the
mutable profile fields, `updatedAt` and `lastLoginAt`. -/
theorem callback_upsert_stable (secret : String) (nowSeconds : Nat)
    (pre post : List User) (u0 : User) (profile : GithubProfile)
    (pe : Option String) (ghTok freshId nowS : String)
    (c st rt : String) (i : Int)
    (hc : c ≠ "") (hst : st ≠ "")
    (hid : profile.id = some i) (hg : toString i = u0.githubId)
    (hgne : u0.githubId ≠ "")
    (hpre : ∀ u ∈ pre, u.githubId ≠ u0.githubId)
    (hpost : ∀ u ∈ post, u.githubId ≠ u0.githubId)
    (hpreid : ∀ u ∈ pre, u.id ≠ u0.id) (hpostid : ∀ u ∈ post, u.id ≠ u0.id) :
    (callbackGET secret nowSeconds
        ⟨.ok ghTok, .ok profile, pe, pre ++ u0 :: post, freshId, nowS⟩
        (some c) (some st) (some (encodeStateCookie ⟨st, rt⟩))).2.1 =
      pre ++ applyUserUpdate profile
        (match profile.email with | some e => some e | none => pe) nowS u0 :: post ∧
    (((callbackGET secret nowSeconds
        ⟨.ok ghTok, .ok profile, pe, pre ++ u0 :: post, freshId, nowS⟩
        (some c) (some st) (some (encodeStateCookie ⟨st, rt⟩))).2.1.filter
          (fun u => u.githubId == u0.githubId)).length = 1) ∧
    (∀ em : Option String,
      (applyUserUpdate profile em nowS u0).id = u0.id ∧
      (applyUserUpdate profile em nowS u0).githubId = u0.githubId ∧
      (applyUserUpdate profile em nowS u0).createdAt = u0.createdAt ∧
      (applyUserUpdate profile em nowS u0).login = profile.login ∧
      (applyUserUpdate profile em nowS u0).email = em ∧
      (applyUserUpdate profile em nowS u0).lastLoginAt = nowS) := by
  have hvalid : stateValid (decodeStateCookie (some (encodeStateCookie ⟨st, rt⟩))) st
      = true := by
    rw [decode_encode_statePayload ⟨st, rt⟩]
    simp [stateValid, statePayloadJson, jsTruthy, Json.getField, List.find?]
  have hfind : (pre ++ u0 :: post).find? (fun u => u.githubId == u0.githubId)
      = some u0 := by
    have h1 : pre.find? (fun u => u.githubId == u0.githubId) = none :=
      List.find?_eq_none.mpr (fun x hx => by
        simp only [beq_iff_eq]
        exact hpre x hx)
    simp [List.find?_append, h1, List.find?_cons]
  have hmap : (pre ++ u0 :: post).map (fun u =>
      if u.id == u0.id then applyUserUpdate profile
        (match profile.email with | some e => some e | none => pe) nowS u else u) =
      pre ++ applyUserUpdate profile
        (match profile.email with | some e => some e | none => pe) nowS u0 :: post := by
    rw [List.map_append, List.map_cons]
    rw [map_fixes pre _ (fun x hx => by
      simp only [beq_iff_eq]
      rw [if_neg (hpreid x hx)])]
    rw [map_fixes post _ (fun x hx => by
      simp only [beq_iff_eq]
      rw [if_neg (hpostid x hx)])]
    simp
  have hupd : ∀ em : Option String,
      (applyUserUpdate profile em nowS u0).githubId = u0.githubId := fun _ => rfl
  refine ⟨?_, ?_, fun em => ⟨rfl, rfl, rfl, rfl, rfl, rfl⟩⟩
  · unfold callbackGET
    dsimp only
    rw [if_neg (by tauto), if_neg (by simp [hvalid])]
    rw [hid]
    dsimp only
    rw [hg, if_neg hgne, hfind]
    dsimp only
    rw [hmap]
  · unfold callbackGET
    dsimp only
    rw [if_neg (by tauto), if_neg (by simp [hvalid])]
    rw [hid]
    dsimp only
    rw [hg, if_neg hgne, hfind]
    dsimp only
    rw [hmap]
    have hfilpre : List.filter (fun u => u.githubId == u0.githubId) pre = [] :=
      List.filter_eq_nil_iff.mpr (fun x hx h => hpre x hx (beq_iff_eq.mp h))
    have hfilpost : List.filter (fun u => u.githubId == u0.githubId) post = [] :=
      List.filter_eq_nil_iff.mpr (fun x hx h => hpost x hx (beq_iff_eq.mp h))
    simp [List.filter_append, List.filter_cons, hupd, hfilpre, hfilpost]

/-- Witness for C8: a store holding exactly the identity `uid-1` with
`githubId = "42"`; a second login with GitHub id 42 updates the record in
place — same `id`, `githubId` and `createdAt`, new profile fields and
`lastLoginAt` — and the store still holds exactly one row for that id. -/
theorem callback_upsert_stable_witness :
    (callbackGET "k" 0
        ⟨.ok "t", .ok ⟨some 42, "octo", some "Octo New", some "new@x", some "av"⟩,
          none, [⟨"uid-1", "42", "old", some "Old", some "old@x", none,
            "2025-01-01", "2025-01-01", "2025-01-01", false⟩], "f", "2026-02-02"⟩
        (some "code1") (some "nonce1")
        (some (encodeStateCookie ⟨"nonce1", "/a"⟩))).2.1 =
      [⟨"uid-1", "42", "octo", some "Octo New", some "new@x", some "av",
        "2025-01-01", "2026-02-02", "2026-02-02", false⟩] ∧
    ((callbackGET "k" 0
        ⟨.ok "t", .ok ⟨some 42, "octo", some "Octo New", some "new@x", some "av"⟩,
          none, [⟨"uid-1", "42", "old", some "Old", some "old@x", none,
            "2025-01-01", "2025-01-01", "2025-01-01", false⟩], "f", "2026-02-02"⟩
        (some "code1") (some "nonce1")
        (some (encodeStateCookie ⟨"nonce1", "/a"⟩))).2.1.filter
          (fun u => u.githubId == "42")).length = 1 := by
  have h := callback_upsert_stable "k" 0 [] []
    ⟨"uid-1", "42", "old", some "Old", some "old@x", none,
      "2025-01-01", "2025-01-01", "2025-01-01", false⟩
    ⟨some 42, "octo", some "Octo New", some "new@x", some "av"⟩
    none "t" "f" "2026-02-02" "code1" "nonce1" "/a" 42
    (by decide) (by decide) rfl rfl (by decide)
    (by simp) (by simp) (by simp) (by simp)
  exact ⟨h.1, h.2.1⟩

/- ------------------------------------------------------------------ -/
/-! ## Popup bridge: the opener's message handler
(`handleAuthMessage` in `src/app/page.tsx`)

The handler receives a `message` event, checks the event's origin against
the window's, checks the payload's `type` tag, **closes the popup if it is
still open**, clears the pending flag, and sets or clears the session
error according to the payload's status. It never touches localStorage or
the in-memory credential cache. -/

/-- `AUTH_POPUP_MESSAGE = "ai-gallery:github-auth"`. -/
def AUTH_POPUP_MESSAGE : String := "ai-gallery:github-auth"

/-- A popup message as the opener reads it (`AuthMessagePayload`):
`status` is `"success"` or `"error"`; `error` is the reason string of
error messages (empty when absent). -/
structure AuthMessage where
  type : String
  status : String
  user : Option SessionUser
  error : String
deriving DecidableEq, Repr

/-- The opener state `handleAuthMessage` can observe or mutate: the popup
handle, the pending flag, the session error, and the credential cache
(token slot, user slot, in-memory user mirror). -/
structure OpenerState where
  popupOpen : Bool
  inlineLoginPending : Bool
  sessionError : Option String
  tokenStore : Option StoredTokenPayload
  userStore : Option SessionUser
  userCache : Option SessionUser
deriving DecidableEq, Repr

/-- `handleAuthMessage(event)`: ignore cross-origin events and payloads of
another type; otherwise close the popup (whether or not the message is an
error), clear the pending flag, and set `sessionError` to
`payload.error || "Unable to sign in."` on error or to `null` on
success. -/
def handleAuthMessage (windowOrigin eventOrigin : String) (data : Option AuthMessage)
    (st : OpenerState) : OpenerState :=
  if eventOrigin ≠ windowOrigin then st
  else
    match data with
    | none => st
    | some payload =>
      if payload.type ≠ AUTH_POPUP_MESSAGE then st
      else
        { st with
            popupOpen := false
            inlineLoginPending := false
            sessionError :=
              if payload.status = "error" then
                some (if payload.error ≠ "" then payload.error else "Unable to sign in.")
              else none }

/- ------------------------------------------------------------------ -/
/-! ### Claim C9 -/

/-- C9 (counterexample). The claim says the opener leaves the popup window
open on an error message for the user to inspect or retry. It does not:
`handleAuthMessage` closes the popup before it even looks at the status.
Concretely, a same-origin `{status: "error", error: "access_denied"}`
message delivered while the popup is open leaves the popup closed. -/
theorem handleAuthMessage_error_closes_popup_cex :
    (handleAuthMessage "https://app.example" "https://app.example"
        (some ⟨AUTH_POPUP_MESSAGE, "error", none, "access_denied"⟩)
        ⟨true, true, none, none, none, none⟩).popupOpen = false := by
  decide

/-- C9 (amended). For every same-origin popup message of the
authentication type with status `"error"`, the opener surfaces the
message's reason (`sessionError` becomes the message's `error` string, or
`"Unable to sign in."` when it is empty), writes nothing into the
credential cache — token slot, user slot and in-memory mirror are
unchanged — clears the pending flag, and **closes the popup if it is still
open** (the close happens for any well-formed auth message, regardless of
status). -/
theorem handleAuthMessage_error_surfaces_without_cache_write
    (origin : String) (payload : AuthMessage) (st : OpenerState)
    (htype : payload.type = AUTH_POPUP_MESSAGE) (hstatus : payload.status = "error") :
    (handleAuthMessage origin origin (some payload) st).sessionError =
      some (if payload.error ≠ "" then payload.error else "Unable to sign in.") ∧
    (handleAuthMessage origin origin (some payload) st).tokenStore = st.tokenStore ∧
    (handleAuthMessage origin origin (some payload) st).userStore = st.userStore ∧
    (handleAuthMessage origin origin (some payload) st).userCache = st.userCache ∧
    (handleAuthMessage origin origin (some payload) st).inlineLoginPending = false ∧
    (handleAuthMessage origin origin (some payload) st).popupOpen = false := by
  simp [handleAuthMessage, htype, hstatus]

/-- Witness for the amended C9 at the counterexample's input: the reason
`"access_denied"` is surfaced, the cache (here holding a stored session)
is untouched, and the popup ends up closed. -/
theorem handleAuthMessage_error_surfaces_without_cache_write_witness :
    (handleAuthMessage "https://app.example" "https://app.example"
        (some ⟨AUTH_POPUP_MESSAGE, "error", none, "access_denied"⟩)
        ⟨true, true, none, some ⟨"a", 1, "r", 2⟩,
          some ⟨"u1", "octo", none, none, none, false⟩,
          some ⟨"u1", "octo", none, none, none, false⟩⟩).sessionError =
      some "access_denied" ∧
    (handleAuthMessage "https://app.example" "https://app.example"
        (some ⟨AUTH_POPUP_MESSAGE, "error", none, "access_denied"⟩)
        ⟨true, true, none, some ⟨"a", 1, "r", 2⟩,
          some ⟨"u1", "octo", none, none, none, false⟩,
          some ⟨"u1", "octo", none, none, none, false⟩⟩).tokenStore =
      some ⟨"a", 1, "r", 2⟩ ∧
    (handleAuthMessage "https://app.example" "https://app.example"
        (some ⟨AUTH_POPUP_MESSAGE, "error", none, "access_denied"⟩)
        ⟨true, true, none, some ⟨"a", 1, "r", 2⟩,
          some ⟨"u1", "octo", none, none, none, false⟩,
          some ⟨"u1", "octo", none, none, none, false⟩⟩).popupOpen = false := by
  have h := handleAuthMessage_error_surfaces_without_cache_write
    "https://app.example" ⟨AUTH_POPUP_MESSAGE, "error", none, "access_denied"⟩
    ⟨true, true, none, some ⟨"a", 1, "r", 2⟩,
      some ⟨"u1", "octo", none, none, none, false⟩,
      some ⟨"u1", "octo", none, none, none, false⟩⟩ rfl rfl
  exact ⟨by rw [h.1]; decide, h.2.1, h.2.2.2.2.2⟩
